import Mathlib

/-!
# Telescope resolution drivers

A shallow embedding of the three driver programs

* `src/devices/tscope_sps.cc`          (material-budget scan, SPS telescope),
* `src/devices/tscope_sps_MCerror.cc`  (Monte Carlo error propagation, SPS telescope),
* `src/devices/tscope_desy_MCerror.cc` (Monte Carlo error propagation, DESY telescope),

over the rationals (`ℚ` stands for `double`).  The resolution estimator
(`telescope(planes, energy).getResolution(index)`), the fit, the square root and the
rounding `rnd` of the double arithmetic of the histogram are parameters of the model;
`binary64` is the rounding of IEEE double precision.
-/

namespace gblsim

/-! ## Data model -/

/-- Modelled from the spec: the class `plane` of `assembly.h`, which is not among the
sources (spec 3, Plane).  The drivers build planes with the two constructor calls
`plane(position, materialBudget, true, intrinsicResolution)` and
`plane(position, materialBudget, false)`; a plane built by the second call carries
no intrinsic resolution. -/
structure plane where
  position : ℚ
  materialBudget : ℚ
  isMeasurement : Bool
  intrinsicResolution : Option ℚ
deriving DecidableEq

/-- Modelled from the spec: the constructor call `plane(z, x, true, res)` (spec 4.1).
Construction fails with `InvalidPlane`, here `none`, if `materialBudget < 0` or
`intrinsicResolution < 0`. -/
def plane.measurement (z x res : ℚ) : Option plane :=
  if x < 0 ∨ res < 0 then none else some ⟨z, x, true, some res⟩

/-- Modelled from the spec: the constructor call `plane(z, x, false)` (spec 4.1).
Construction fails with `InvalidPlane`, here `none`, if `materialBudget < 0`. -/
def plane.scatterer (z x : ℚ) : Option plane :=
  if x < 0 then none else some ⟨z, x, false, none⟩

/-- The resolution estimator: `oracle planes energy k` stands for
`telescope(planes, energy).getResolution(k)`. -/
abbrev Oracle := List plane → ℚ → Nat → ℚ

/-- One call of the estimator: the arguments of the `telescope` constructor and the
index passed to `getResolution`. -/
structure OracleCall where
  planes : List plane
  energy : ℚ
  index : Nat
deriving DecidableEq

/-- Value returned by the estimator for a recorded call. -/
def OracleCall.result (oracle : Oracle) (c : OracleCall) : ℚ :=
  oracle c.planes c.energy c.index

/-! ## Command line, standard output, exit -/

/-- A line written to `std::cout` by a driver.  Numbers are kept as numbers; the log lines
of `LOG(logRESULT)` go to the logger and are not part of this record. -/
inductive Line
  | text (s : String)
  | choseMode (mode : Int)
  | pwd
  | setRange (lo hi : ℚ)
  | pointing (fMean fSigma : ℚ)
deriving DecidableEq

/-- How a run of `main` ends: by `return`, or at the null pointer `argv[argc]`, at a plane
construction that fails with `InvalidPlane` (fatal: the run is aborted), at
`func->GetParameter` on a null `func`, or at `out->Write()` on an unassigned `out`. -/
inductive Exit
  | returned (status : Int)
  | nullString
  | invalidPlane
  | nullFunction
  | unassignedOut
deriving DecidableEq

/-- The digits loop of `atoi`. -/
def atoiDigits : List Char → Int → Int
  | [], acc => acc
  | c :: cs, acc =>
    if c.isDigit then atoiDigits cs (acc * 10 + ((c.toNat - 48 : Nat) : Int)) else acc

/-- White space as skipped by `atoi` (`isspace` in the C locale). -/
def isspace (c : Char) : Bool :=
  c = ' ' || c = '\t' || c = '\n' || c = '\r' || c.toNat = 11 || c.toNat = 12

/-- The C library function `atoi`: leading white space, an optional sign, then decimal
digits up to the first other character; `0` when there is no digit. -/
def atoi (s : String) : Int :=
  match s.toList.dropWhile isspace with
  | '-' :: cs => - atoiDigits cs 0
  | '+' :: cs => atoiDigits cs 0
  | cs => atoiDigits cs 0

/-- Result of the argument loop `for (int i = 1; i < argc; i++)`. -/
inductive Parsed
  | usage (out : List Line)
  | nullString (out : List Line)
  | proceed (mode : Int) (level : String) (out : List Line)
deriving DecidableEq

/-- The argument loop shared by the three drivers, over `argv[1..]`.  `mode` is the current
value of the local `int mode` (never initialised by the drivers), `level` the reporting
level, `out` what was printed so far.  `"-v"` consumes the next argument as the level
(`argv[++i]`; after the last argument this is the null pointer `argv[argc]`); any other
argument is read by `atoi`, and `0` prints the usage text and returns. -/
def parseArgs (usageText : List Line) : List String → Int → String → List Line → Parsed
  | [], mode, level, out => .proceed mode level out
  | a :: rest, mode, level, out =>
    if a = "-v" then
      match rest with
      | [] => .nullString out
      | lvl :: rest2 => parseArgs usageText rest2 mode lvl out
    else
      if atoi a = 0 then .usage (out ++ usageText)
      else parseArgs usageText rest (atoi a) level (out ++ [Line.choseMode (atoi a)])

/-- Values of the locals that the drivers leave unassigned on some paths: `mode` when no
mode argument is given, `X_DUT`, `ERR_X_DUT`, `Z_DUT`, `Z_TPX3` for modes outside the
branches that assign them. -/
structure Indeterminate where
  mode : Int
  X_DUT : ℚ
  ERR_X_DUT : ℚ
  Z_DUT : ℚ
  Z_TPX3 : ℚ

/-! ## Histogram, fit -/

/-- Increment of the content of cell `bin` (`AddBinContent`). -/
def addBinContent : Nat → List Nat → List Nat
  | _, [] => []
  | 0, c :: cs => (c + 1) :: cs
  | bin + 1, c :: cs => c :: addBinContent bin cs

/-- The ROOT histogram `TH1F` as far as the drivers use it: `contents` has the underflow
cell, `nbins` bins and the overflow cell; `entries` counts the calls of `Fill`;
`tsumw`, `tsumwx`, `tsumwx2` are the running sums of the in-range fills (doubles in ROOT);
`range` is the window set by `SetRangeUser`.  The cell contents are counts (`Float_t` in
ROOT, exact up to `2^24` per cell). -/
structure TH1F where
  nbins : Nat
  xmin : ℚ
  xmax : ℚ
  contents : List Nat
  entries : Nat
  tsumw : ℚ
  tsumwx : ℚ
  tsumwx2 : ℚ
  range : Option (ℚ × ℚ)
deriving DecidableEq

/-- The constructor call `new TH1F(name, title, nbins, xmin, xmax)`. -/
def TH1F.new (nbins : Nat) (xmin xmax : ℚ) : TH1F :=
  ⟨nbins, xmin, xmax, List.replicate (nbins + 2) 0, 0, 0, 0, 0, none⟩

/-- Cell of a value (`TAxis::FindBin`): `0` below `xmin`, `nbins + 1` from `xmax` on, else
`1 + int(nbins * (x - xmin) / (xmax - xmin))`, every operation rounded by `rnd`. -/
def TH1F.FindBin (h : TH1F) (rnd : ℚ → ℚ) (x : ℚ) : Nat :=
  if x < h.xmin then 0
  else if x < h.xmax then
    1 + (⌊rnd (rnd ((h.nbins : ℚ) * rnd (x - h.xmin)) / rnd (h.xmax - h.xmin))⌋).toNat
  else h.nbins + 1

/-- The call `Fill(x)`: one more entry, one more count in the cell of `x`, and, when `x`
is in range, `++fTsumw; fTsumwx += x; fTsumwx2 += x*x`, every operation rounded by
`rnd`. -/
def TH1F.Fill (h : TH1F) (rnd : ℚ → ℚ) (x : ℚ) : TH1F :=
  let bin := h.FindBin rnd x
  let h1 := { h with entries := h.entries + 1, contents := addBinContent bin h.contents }
  if bin = 0 ∨ h.nbins < bin then h1
  else { h1 with tsumw := rnd (h.tsumw + 1), tsumwx := rnd (h.tsumwx + x),
                 tsumwx2 := rnd (h.tsumwx2 + rnd (x * x)) }

/-- The call `GetEntries()`. -/
def TH1F.GetEntries (h : TH1F) : Nat := h.entries

/-- The call `GetMean()` (before any axis range is set): `fTsumwx / fTsumw`. -/
def TH1F.GetMean (h : TH1F) (rnd : ℚ → ℚ) : ℚ :=
  if h.tsumw = 0 then 0 else rnd (h.tsumwx / h.tsumw)

/-- The call `GetRMS()` (before any axis range is set):
`sqrt(|fTsumwx2 / fTsumw - mean * mean|)`; `sqrt` is the square root. -/
def TH1F.GetRMS (h : TH1F) (rnd sqrt : ℚ → ℚ) : ℚ :=
  if h.tsumw = 0 then 0
  else sqrt |rnd (rnd (h.tsumwx2 / h.tsumw) - rnd (h.GetMean rnd * h.GetMean rnd))|

/-- The call `GetXaxis()->SetRangeUser(lo, hi)`. -/
def TH1F.SetRangeUser (h : TH1F) (lo hi : ℚ) : TH1F := { h with range := some (lo, hi) }

/-- A fitted function: its parameters, `GetParameter(i)` being entry `i`. -/
structure TF1 where
  parameters : List ℚ
deriving DecidableEq

/-- The call `GetParameter(i)`. -/
def TF1.GetParameter (f : TF1) (i : Nat) : ℚ := f.parameters.getD i 0

/-- The fit: `fit h` stands for `h->Fit("gaus")` followed by `h->GetFunction("gaus")`,
`none` being the null pointer returned when the histogram holds no fitted function. -/
abbrev Fit := TH1F → Option TF1

/-- Filling a histogram with a sequence of outcomes, in order. -/
def TH1F.fillAll (h : TH1F) (rnd : ℚ → ℚ) (outcomes : List ℚ) : TH1F :=
  outcomes.foldl (fun g x => g.Fill rnd x) h

/-- Lower end `mean - 5*sigma` of the window, in the arithmetic rounded by `rnd`. -/
def windowLo (rnd : ℚ → ℚ) (mean sigma : ℚ) : ℚ := rnd (mean - rnd (5 * sigma))

/-- Upper end `mean + 5*sigma` of the window, in the arithmetic rounded by `rnd`. -/
def windowHi (rnd : ℚ → ℚ) (mean sigma : ℚ) : ℚ := rnd (mean + rnd (5 * sigma))

/-- What the summarizing step of the Monte Carlo drivers leaves: printed lines, the
histogram with its window, and the reported pair `(fMean, fSigma)`. -/
structure Summary where
  out : List Line
  hResolution : TH1F
  report : Option (ℚ × ℚ)
deriving DecidableEq

/-- The summarizing step (`tscope_sps_MCerror.cc` lines 171-181, `tscope_desy_MCerror.cc`
lines 208-218): raw mean and RMS, window `mean ± 5 sigma`, fit, then
`func->GetParameter(1)` and `func->GetParameter(2)` with `func` not tested against null:
no report is produced when the fit left no function. -/
def summarize (rnd sqrt : ℚ → ℚ) (fit : Fit) (hResolution : TH1F) : Summary :=
  let mean := hResolution.GetMean rnd
  let sigma := hResolution.GetRMS rnd sqrt
  let out := [Line.setRange (windowLo rnd mean sigma) (windowHi rnd mean sigma)]
  let h := hResolution.SetRangeUser (windowLo rnd mean sigma) (windowHi rnd mean sigma)
  match fit h with
  | none => ⟨out, h, none⟩
  | some func =>
    let fMean := func.GetParameter 1
    let fSigma := func.GetParameter 2
    ⟨out ++ [Line.pointing fMean fSigma], h, some (fMean, fSigma)⟩

/-! ## Double precision -/

/-- Number of binary digits of `n` minus one, for `n > 0`, by `fuel` halvings. -/
def log2fuel : Nat → Nat → Nat
  | 0, _ => 0
  | fuel + 1, n => if 2 ≤ n then log2fuel fuel (n / 2) + 1 else 0

/-- The exponent `e` with `2^e ≤ |q| < 2^(e+1)`, for `q ≠ 0`. -/
def ilog2 (q : ℚ) : Int :=
  let e0 : Int := (log2fuel q.num.natAbs q.num.natAbs : Int) - (log2fuel q.den q.den : Int)
  if (2 : ℚ) ^ e0 ≤ |q| then e0 else e0 - 1

/-- Rounding of IEEE double precision: the nearest number with 53 significant binary
digits, ties to the even one (overflow and subnormal numbers left aside). -/
def binary64 (q : ℚ) : ℚ :=
  if q = 0 then 0
  else
    let ulp : ℚ := (2 : ℚ) ^ (ilog2 q - 52)
    let m : ℚ := q / ulp
    let f : Int := ⌊m⌋
    let r : ℚ := m - f
    let n : Int :=
      if r < 1 / 2 then f else if 1 / 2 < r then f + 1 else if f % 2 = 0 then f else f + 1
    (n : ℚ) * ulp

/-! ## Random generator -/

/-- The generator `TRandom3`: `z` is the stream of standard normal draws it will deliver,
`pos` the number of draws made so far. -/
structure TRandom3 where
  z : Nat → ℚ
  pos : Nat

/-- The call `rand->Gaus(mean, sigma)`: `mean + sigma * z` for the next standard draw. -/
def TRandom3.Gaus (r : TRandom3) (mean sigma : ℚ) : ℚ × TRandom3 :=
  (mean + sigma * r.z r.pos, { r with pos := r.pos + 1 })

/-! ## `tscope_sps.cc`: the scan loop -/

/-- One pass through the body of the scan loop of `tscope_sps.cc` (lines 129-145):
the point index `j`, the loop variable `dut_x0`, the estimator call, and the point
`SetPoint(j, dut_x0*100, getResolution(3))`. -/
structure ScanStep where
  j : Nat
  dut_x0 : ℚ
  call : OracleCall
  pointX : ℚ
  pointY : ℚ
deriving DecidableEq

/-- Body of the scan loop at loop variable `dut_x0` and point index `j`; `none` when the
construction of the DUT fails. -/
def scanBody (oracle : Oracle) (tpx3_tel : List plane) (Z_DUT EBEAM : ℚ)
    (dut_x0 : ℚ) (j : Nat) : Option ScanStep :=
  (plane.scatterer Z_DUT dut_x0).map fun dut =>
    let planes := tpx3_tel ++ [dut]
    let call : OracleCall := ⟨planes, EBEAM, 3⟩
    ⟨j, dut_x0, call, dut_x0 * 100, call.result oracle⟩

/-- The loop `for(double dut_x0 = start; dut_x0 < stop; dut_x0 += step) { body; j++; }`,
started at loop variable `dut_x0` and index `j`.  The first argument bounds the number
of loop tests; `none` means that the bound was reached before the loop ended.  The
result is the passes made and whether the loop was left by a failed plane construction
(`true`) rather than by its test (`false`). -/
def scanLoop (oracle : Oracle) (tpx3_tel : List plane) (Z_DUT EBEAM : ℚ) (stop step : ℚ) :
    Nat → ℚ → Nat → Option (List ScanStep × Bool)
  | 0, _, _ => none
  | fuel + 1, dut_x0, j =>
    if dut_x0 < stop then
      match scanBody oracle tpx3_tel Z_DUT EBEAM dut_x0 j with
      | none => some ([], true)
      | some s =>
        (scanLoop oracle tpx3_tel Z_DUT EBEAM stop step fuel (dut_x0 + step) (j + 1)).map
          (fun rest => (s :: rest.1, rest.2))
    else some ([], false)

/-- The loop `for(int i = 0; i < Z_TEL.size(); i++)` of `tscope_sps.cc` (lines 123-125):
one measurement plane per entry of `Z_TEL`; `none` when a construction fails. -/
def telescopeSetup (X RES : ℚ) : List ℚ → Option (List plane)
  | [] => some []
  | z :: zs =>
    (plane.measurement z X RES).bind fun p =>
      (telescopeSetup X RES zs).map fun rest => p :: rest

/-! ## Runs -/

/-- What a run of a driver leaves behind: the lines on `std::cout`, the file given to
`TFile::Open`, the planes built (grouped as handed to the estimator), the estimator
calls in order, the points of the graph (scan driver), the histogram and the reported
pair (Monte Carlo drivers), the plot title, and how `main` ended. -/
structure Run where
  stdout : List Line
  opened : Option String
  built : List plane
  calls : List OracleCall
  points : List (Nat × ℚ × ℚ)
  hResolution : Option TH1F
  report : Option (ℚ × ℚ)
  title : Option String
  exit : Exit
deriving DecidableEq

/-- A run that ends inside or before the argument loop. -/
def Run.early (out : List Line) (exit : Exit) : Run :=
  ⟨out, none, [], [], [], none, none, none, exit⟩

/-- Lines printed by the output-file dispatch and `gDirectory->pwd()`. -/
def dispatchLines (file : Option String) : List Line :=
  (if file.isSome then [] else [Line.text "Invalid mode...try again..."]) ++ [Line.pwd]

/-- End of `main` after `out->Write()`: `return 0` when `out` was assigned. -/
def finish (file : Option String) : Exit :=
  if file.isSome then Exit.returned 0 else Exit.unassignedOut

/-! ## Monte Carlo loop -/

/-- State carried through the Monte Carlo loop; `aborted` is set when a plane
construction failed. -/
structure MCState where
  rand : TRandom3
  hResolution : TH1F
  calls : List OracleCall
  aborted : Bool

/-- The loop `for(int it=0; it<1e4; it++)` with bound `n` and loop variable `it`;
`iteration` builds the realization from the generator (`none` when a plane construction
fails, which ends the run), and the histogram is filled with `mytel.getResolution(3)`. -/
def mcLoop (oracle : Oracle) (rnd : ℚ → ℚ)
    (iteration : TRandom3 → Option (OracleCall × TRandom3)) (n : Nat)
    (it : Nat) (st : MCState) : MCState :=
  if it < n then
    match iteration st.rand with
    | none => { st with aborted := true }
    | some r =>
      mcLoop oracle rnd iteration n (it + 1)
        ⟨r.2, st.hResolution.Fill rnd (r.1.result oracle), st.calls ++ [r.1], st.aborted⟩
  else st
termination_by n - it

/-- The loop `for(int i = 0; i < Z_TEL.size(); i++)` of the Monte Carlo drivers: one
measurement plane per entry of `Z_TEL`, each with three draws (arguments taken left to
right); `none` when a construction fails. -/
def sampleTelescope (ERR_Z X ERR_X RES ERR_RES : ℚ) :
    List ℚ → TRandom3 → Option (List plane × TRandom3)
  | [], rand => some ([], rand)
  | z :: zs, rand =>
    let d1 := rand.Gaus z ERR_Z
    let d2 := d1.2.Gaus X ERR_X
    let d3 := d2.2.Gaus RES ERR_RES
    (plane.measurement d1.1 d2.1 d3.1).bind fun p =>
      (sampleTelescope ERR_Z X ERR_X RES ERR_RES zs d3.2).map fun rest =>
        (p :: rest.1, rest.2)

/-- The part of `main` shared by the two Monte Carlo drivers from the output-file dispatch
on: the histogram `new TH1F("hResolution","hResolution",1000,0,10)`, the Monte Carlo loop
with bound `n` (`1e4` in both drivers), then, unless a plane construction aborted the
run, the summarizing step. -/
def mcRun (oracle : Oracle) (rnd sqrt : ℚ → ℚ) (fit : Fit) (z : Nat → ℚ)
    (iteration : TRandom3 → Option (OracleCall × TRandom3)) (n : Nat)
    (file title : Option String) (out : List Line) : Run :=
  let st := mcLoop oracle rnd iteration n 0 ⟨⟨z, 0⟩, TH1F.new 1000 0 10, [], false⟩
  if st.aborted then
    { stdout := out ++ dispatchLines file
      opened := file
      built := st.calls.flatMap fun c => c.planes
      calls := st.calls
      points := []
      hResolution := some st.hResolution
      report := none
      title := none
      exit := Exit.invalidPlane }
  else
    let s := summarize rnd sqrt fit st.hResolution
    { stdout := out ++ dispatchLines file ++ s.out
      opened := file
      built := st.calls.flatMap fun c => c.planes
      calls := st.calls
      points := []
      hResolution := some s.hResolution
      report := s.report
      title := if s.report.isSome then title else none
      exit := if s.report.isSome then finish file else Exit.nullFunction }

end gblsim

/-! ## `tscope_sps.cc` -/

namespace tscope_sps
open gblsim

/-- Usage text (lines 43-47). -/
def usageText : List Line :=
  [Line.text "Please choose your mode:",
   Line.text "\t0: 7 Timepix3 planes, DUT = APX",
   Line.text "\t1: 6 Timepix3 planes, DUT = APX",
   Line.text "\t0: 7 Timepix3 planes, DUT = CP2",
   Line.text "\t1: 6 Timepix3 planes, DUT = CP2"]

/-- Output-file dispatch (lines 54-65); `none` is the branch `Invalid mode`, which leaves
`out` unassigned. -/
def outFile (mode : Int) : Option String :=
  if mode = 1 then some "output/sps-resolution-nov2018_apx_7planes.root"
  else if mode = 2 then some "output/sps-resolution-nov2018_apx_6planes.root"
  else if mode = 3 then some "output/sps-resolution-nov2018_cp2_7planes.root"
  else if mode = 4 then some "output/sps-resolution-nov2018_cp2_6planes.root"
  else none

def X_TPX3 : ℚ := 4.0e-2
def RES : ℚ := 4e-3

/-- Assignment of `X_DUT` (lines 82-88); `none` when neither `if` assigns it. -/
def X_DUT (mode : Int) : Option ℚ :=
  let x1 : Option ℚ := if mode = 1 ∨ mode = 2 then some 0.985e-2 else none
  if mode = 3 ∨ mode = 4 then some 2.4e-2 else x1

def vary_x : ℚ := 0.1

/-- Positions of the telescope planes (lines 99-108). -/
def Z_TEL (mode : Int) : List ℚ :=
  [0.0, 21.5, 43.5, 186.5, 208.0, 231.5] ++ (if mode = 1 ∨ mode = 3 then [336.5] else [])

def Z_DUT : ℚ := 105.0
def EBEAM : ℚ := 120.0

/-- Telescope setup (lines 120-125). -/
def tpx3_tel (mode : Int) : Option (List plane) :=
  telescopeSetup X_TPX3 RES (Z_TEL mode)

/-- Graph title (lines 148-159). -/
def title (mode : Int) : Option String :=
  let t1 : Option String := if mode = 1 then
    some "APX: Res. at DUT (7 planes);DUT material budget X/X_\x7b0\x7d [%];resolution at DUT [#mum]"
    else none
  let t2 := if mode = 2 then
    some "APX: Res. at DUT (6 planes);DUT material budget X/X_\x7b0\x7d [%];resolution at DUT [#mum]"
    else t1
  let t3 := if mode = 3 then
    some "CP2: Res. at DUT (7 planes);DUT material budget X/X_\x7b0\x7d [%];resolution at DUT [#mum]"
    else t2
  if mode = 4 then
    some "CP2: Res. at DUT (6 planes);DUT material budget X/X_\x7b0\x7d [%];resolution at DUT [#mum]"
  else t3

/-- The scan of `main` for a given mode and telescope: the loop of lines 129-145 with
`start = X_DUT*(1-vary_x)`, `stop = X_DUT*(1+vary_x)`, `step = 0.0001`.  The loop variable
is exact here; accumulated in doubles it differs in the last digits, which can add a
pass at the upper end. -/
def scan (oracle : Oracle) (u : Indeterminate) (fuel : Nat) (mode : Int)
    (tel : List plane) : Option (List ScanStep × Bool) :=
  let x := (X_DUT mode).getD u.X_DUT
  scanLoop oracle tel Z_DUT EBEAM (x * (1 + vary_x)) 0.0001 fuel (x * (1 - vary_x)) 0

/-- The function `main` of `tscope_sps.cc` on the arguments `argv[1..]`; `fuel` bounds the
number of tests of the scan loop (`none`: the bound was reached). -/
def main (oracle : Oracle) (u : Indeterminate) (fuel : Nat) (argv : List String) :
    Option Run :=
  match parseArgs usageText argv u.mode "INFO" [] with
  | .usage out => some (Run.early out (Exit.returned 0))
  | .nullString out => some (Run.early out Exit.nullString)
  | .proceed mode _ out =>
    match tpx3_tel mode with
    | none =>
      some { stdout := out ++ dispatchLines (outFile mode)
             opened := outFile mode
             built := []
             calls := []
             points := []
             hResolution := none
             report := none
             title := none
             exit := Exit.invalidPlane }
    | some tel =>
      (scan oracle u fuel mode tel).map fun r =>
        { stdout := out ++ dispatchLines (outFile mode)
          opened := outFile mode
          built := tel ++ r.1.map fun s => (⟨Z_DUT, s.dut_x0, false, none⟩ : plane)
          calls := r.1.map fun s => s.call
          points := r.1.map fun s => (s.j, s.pointX, s.pointY)
          hResolution := none
          report := none
          title := if r.2 then none else title mode
          exit := if r.2 then Exit.invalidPlane else finish (outFile mode) }

end tscope_sps

/-! ## `tscope_sps_MCerror.cc` -/

namespace tscope_sps_MCerror
open gblsim

/-- Usage text (lines 52-56). -/
def usageText : List Line :=
  [Line.text "Please choose your mode:",
   Line.text "\t1: 7 Timepix3 planes, DUT = APX",
   Line.text "\t2: 6 Timepix3 planes, DUT = APX",
   Line.text "\t3: 7 Timepix3 planes, DUT = CP2",
   Line.text "\t4: 6 Timepix3 planes, DUT = CP2"]

/-- Output-file dispatch (lines 63-74). -/
def outFile (mode : Int) : Option String :=
  if mode = 1 then some "output/sps-resolution-nov2018_apx_7planes.root"
  else if mode = 2 then some "output/sps-resolution-nov2018_apx_6planes.root"
  else if mode = 3 then some "output/sps-resolution-nov2018_cp2_7planes.root"
  else if mode = 4 then some "output/sps-resolution-nov2018_cp2_6planes.root"
  else none

/-- Assignment of `X_DUT` (lines 96-106). -/
def X_DUT (mode : Int) : Option ℚ :=
  let x1 : Option ℚ := if mode = 1 ∨ mode = 2 then some 1.025e-2 else none
  if mode = 3 ∨ mode = 4 then some 2.4e-2 else x1

/-- Assignment of `ERR_X_DUT` (lines 97-106). -/
def ERR_X_DUT (mode : Int) : Option ℚ :=
  let e1 : Option ℚ := if mode = 1 ∨ mode = 2 then some 0.5e-2 else none
  if mode = 3 ∨ mode = 4 then some 0.5e-2 else e1

/-- Positions of the telescope planes (lines 115-124). -/
def Z_TEL (mode : Int) : List ℚ :=
  [0.0, 21.5, 43.5, 186.5, 208.0, 231.5] ++ (if mode = 1 ∨ mode = 3 then [336.5] else [])

/-- Histogram title (lines 184-195). -/
def title (mode : Int) : Option String :=
  let t1 : Option String := if mode = 1 then some "APX: Res. at DUT (7 planes)" else none
  let t2 := if mode = 2 then some "APX: Res. at DUT (6 planes)" else t1
  let t3 := if mode = 3 then some "CP2: Res. at DUT (7 planes)" else t2
  if mode = 4 then some "CP2: Res. at DUT (6 planes)" else t3

/-- Values of the locals of `main` on entry to the Monte Carlo loop. -/
structure Locals where
  X_TPX3 : ℚ
  ERR_X_TPX3 : ℚ
  RES : ℚ
  ERR_RES : ℚ
  X_DUT : ℚ
  ERR_X_DUT : ℚ
  Z_TEL : List ℚ
  Z_DUT : ℚ
  ERR_Z : ℚ
  EBEAM : ℚ

/-- The locals as `main` sets them for a mode (lines 87-131). -/
def locals (u : Indeterminate) (mode : Int) : Locals where
  X_TPX3 := 4.0e-2
  ERR_X_TPX3 := 0.5e-2
  RES := 4e-3
  ERR_RES := 0.2e-3
  X_DUT := (X_DUT mode).getD u.X_DUT
  ERR_X_DUT := (ERR_X_DUT mode).getD u.ERR_X_DUT
  Z_TEL := Z_TEL mode
  Z_DUT := 105.0
  ERR_Z := 1.0
  EBEAM := 120.0

/-- Body of the Monte Carlo loop up to the estimator call (lines 141-165); `none` when a
plane construction fails. -/
def iteration (v : Locals) (rand : TRandom3) : Option (OracleCall × TRandom3) :=
  let d1 := rand.Gaus v.Z_DUT v.ERR_Z
  let d2 := d1.2.Gaus v.X_DUT v.ERR_X_DUT
  (plane.scatterer d1.1 d2.1).bind fun dut =>
    (sampleTelescope v.ERR_Z v.X_TPX3 v.ERR_X_TPX3 v.RES v.ERR_RES v.Z_TEL d2.2).map
      fun tel => (⟨tel.1 ++ [dut], v.EBEAM, 3⟩, tel.2)

/-- The function `main` of `tscope_sps_MCerror.cc` on the arguments `argv[1..]`, with the
stream `z` of standard normal draws of the generator. -/
def main (oracle : Oracle) (rnd sqrt : ℚ → ℚ) (fit : Fit) (u : Indeterminate)
    (z : Nat → ℚ) (argv : List String) : Run :=
  if argv = [] then Run.early [Line.text "Please choose a mode!"] (Exit.returned 0)
  else
    match parseArgs usageText argv u.mode "INFO" [] with
    | .usage out => Run.early out (Exit.returned 0)
    | .nullString out => Run.early out Exit.nullString
    | .proceed mode _ out =>
      mcRun oracle rnd sqrt fit z (iteration (locals u mode)) 10000 (outFile mode)
        (title mode) out

end tscope_sps_MCerror

/-! ## `tscope_desy_MCerror.cc` -/

namespace tscope_desy_MCerror
open gblsim

/-- Usage text (lines 53-59). -/
def usageText : List Line :=
  [Line.text "Please choose your mode:",
   Line.text "\t1: (June 2019) 6 Mimosa26, DUT = APX",
   Line.text "\t2: (June 2019) 6 Mimosa26 + Timepix3, DUT = APX",
   Line.text "\t3: (June 2019) 6 Mimosa26, DUT = CP2",
   Line.text "\t4: (June 2019) 6 Mimosa26 + Timepix3, DUT = CP2",
   Line.text "\t5: (July 2019) 6 Mimosa26, DUT = APX",
   Line.text "\t6: (July 2019) 6 Mimosa26 + Timepix3, DUT = APX"]

/-- Output-file dispatch (lines 66-77). -/
def outFile (mode : Int) : Option String :=
  if mode = 1 then some "output/desy-resolution-june2019_apx_M26.root"
  else if mode = 2 then some "output/desy-resolution-june2019_apx_M26+TPX3.root"
  else if mode = 3 then some "output/desy-resolution-june2019_cp2_M26.root"
  else if mode = 4 then some "output/desy-resolution-june2019_cp2_M26+TPX3.root"
  else none

/-- Assignment of `X_DUT` (lines 109-120). -/
def X_DUT (mode : Int) : Option ℚ :=
  let x1 : Option ℚ := if mode = 1 ∨ mode = 2 then some 1.025e-2 else none
  if mode = 3 ∨ mode = 4 then some 2.4e-2 else x1

/-- Assignment of `ERR_X_DUT` (lines 110-120). -/
def ERR_X_DUT (mode : Int) : Option ℚ :=
  let e1 : Option ℚ := if mode = 1 ∨ mode = 2 then some 0.5e-2 else none
  if mode = 3 ∨ mode = 4 then some 0.5e-2 else e1

/-- Positions of the Mimosa26 planes (lines 130-155). -/
def Z_TEL (mode : Int) : List ℚ :=
  if mode = 1 ∨ mode = 2 ∨ mode = 3 ∨ mode = 4 then [0, 153, 305, 344, 456, 576]
  else if mode = 5 ∨ mode = 6 then [0, 153, 305, 345, 455, 565]
  else []

/-- Position of the DUT (lines 134-155); `none` when no branch assigns it. -/
def Z_DUT (mode : Int) : Option ℚ :=
  if mode = 1 ∨ mode = 2 ∨ mode = 3 ∨ mode = 4 then some 333
  else if mode = 5 ∨ mode = 6 then some 331
  else none

/-- Position of the Timepix3 plane (lines 144, 154; the variable is declared as `Z_TPX` on
line 131 and used as `Z_TPX3` everywhere else). -/
def Z_TPX3 (mode : Int) : Option ℚ :=
  if mode = 1 ∨ mode = 2 ∨ mode = 3 ∨ mode = 4 then some 666
  else if mode = 5 ∨ mode = 6 then some 629
  else none

/-- Histogram title (lines 221-232). -/
def title (mode : Int) : Option String :=
  let t1 : Option String := if mode = 1 then some "APX: Res. at DUT (M26)" else none
  let t2 := if mode = 2 then some "APX: Res. at DUT (M26+TPX3)" else t1
  let t3 := if mode = 3 then some "CP2: Res. at DUT (M26)" else t2
  if mode = 4 then some "CP2: Res. at DUT (M26+TPX3)" else t3

/-- Values of the locals of `main` on entry to the Monte Carlo loop. -/
structure Locals where
  mode : Int
  X_M26 : ℚ
  ERR_X_M26 : ℚ
  X_TPX3 : ℚ
  ERR_X_TPX3 : ℚ
  RES_M26 : ℚ
  ERR_RES_M26 : ℚ
  RES_TPX3 : ℚ
  ERR_RES_TPX3 : ℚ
  X_DUT : ℚ
  ERR_X_DUT : ℚ
  Z_TEL : List ℚ
  Z_TPX3 : ℚ
  Z_DUT : ℚ
  ERR_Z : ℚ
  EBEAM : ℚ
  ERR_EBEAM : ℚ

/-- The locals as `main` sets them for a mode (lines 90-161). -/
def locals (u : Indeterminate) (mode : Int) : Locals where
  mode := mode
  X_M26 := 0.075e-2
  ERR_X_M26 := 0.01e-2
  X_TPX3 := 3.8e-2
  ERR_X_TPX3 := 0.5e-2
  RES_M26 := 3.2e-3
  ERR_RES_M26 := 0.1e-3
  RES_TPX3 := 12.75e-3
  ERR_RES_TPX3 := 0.01e-3
  X_DUT := (X_DUT mode).getD u.X_DUT
  ERR_X_DUT := (ERR_X_DUT mode).getD u.ERR_X_DUT
  Z_TEL := Z_TEL mode
  Z_TPX3 := (Z_TPX3 mode).getD u.Z_TPX3
  Z_DUT := (Z_DUT mode).getD u.Z_DUT
  ERR_Z := 1.0
  EBEAM := 5.42
  ERR_EBEAM := 5.42 * 0.02

/-- The Timepix3 plane of lines 185-190, added when `mode == 1 || mode == 3`; `none` when
its construction fails. -/
def sampleTimepix3 (v : Locals) (rand : TRandom3) : Option (List plane × TRandom3) :=
  if v.mode = 1 ∨ v.mode = 3 then
    let d1 := rand.Gaus v.Z_TPX3 v.ERR_Z
    let d2 := d1.2.Gaus v.X_TPX3 v.ERR_X_TPX3
    let d3 := d2.2.Gaus v.RES_TPX3 v.ERR_RES_TPX3
    (plane.measurement d1.1 d2.1 d3.1).map fun p => ([p], d3.2)
  else some ([], rand)

/-- Body of the Monte Carlo loop up to the estimator call (lines 171-202); `none` when a
plane construction fails. -/
def iteration (v : Locals) (rand : TRandom3) : Option (OracleCall × TRandom3) :=
  let d1 := rand.Gaus v.Z_DUT v.ERR_Z
  let d2 := d1.2.Gaus v.X_DUT v.ERR_X_DUT
  (plane.scatterer d1.1 d2.1).bind fun dut =>
    (sampleTelescope v.ERR_Z v.X_M26 v.ERR_X_M26 v.RES_M26 v.ERR_RES_M26 v.Z_TEL d2.2).bind
      fun tel =>
        (sampleTimepix3 v tel.2).map fun tpx =>
          let m26_tel := tel.1 ++ tpx.1
          let planes := m26_tel ++ [dut]
          let e := tpx.2.Gaus v.EBEAM v.ERR_EBEAM
          (⟨planes, e.1, 3⟩, e.2)

/-- The function `main` of `tscope_desy_MCerror.cc` on the arguments `argv[1..]`, with the
stream `z` of standard normal draws of the generator. -/
def main (oracle : Oracle) (rnd sqrt : ℚ → ℚ) (fit : Fit) (u : Indeterminate)
    (z : Nat → ℚ) (argv : List String) : Run :=
  if argv = [] then Run.early [Line.text "Please choose a mode!"] (Exit.returned 0)
  else
    match parseArgs usageText argv u.mode "INFO" [] with
    | .usage out => Run.early out (Exit.returned 0)
    | .nullString out => Run.early out Exit.nullString
    | .proceed mode _ out =>
      mcRun oracle rnd sqrt fit z (iteration (locals u mode)) 10000 (outFile mode)
        (title mode) out

end tscope_desy_MCerror

/-! ## Configurations without uncertainty -/

namespace gblsim

/-- The locals of `tscope_sps_MCerror.cc` for mode 1 with every uncertainty set to `0`. -/
def spsFixed : tscope_sps_MCerror.Locals :=
  { tscope_sps_MCerror.locals ⟨0, 0, 0, 0, 0⟩ 1 with
    ERR_X_TPX3 := 0, ERR_RES := 0, ERR_X_DUT := 0, ERR_Z := 0 }

/-- The locals of `tscope_desy_MCerror.cc` for mode 1 with every uncertainty set to `0`. -/
def desyFixed : tscope_desy_MCerror.Locals :=
  { tscope_desy_MCerror.locals ⟨0, 0, 0, 0, 0⟩ 1 with
    ERR_X_M26 := 0, ERR_X_TPX3 := 0, ERR_RES_M26 := 0, ERR_RES_TPX3 := 0, ERR_X_DUT := 0,
    ERR_Z := 0, ERR_EBEAM := 0 }

end gblsim

/-! ## Shape of the plane sequence -/

namespace gblsim

end gblsim

/-! ## Reading the usage text -/

namespace gblsim

/-- The argument list `-v l1 -v l2 ...` for the levels `l1, l2, ...`. -/
def verbosityArgs (levels : List String) : List String :=
  levels.flatMap fun l => ["-v", l]

/-- The mode numbers listed by a usage text: the number that starts each line beginning
with a tab. -/
def listedModes (usageText : List Line) : List Int :=
  usageText.filterMap fun l =>
    match l with
    | Line.text s => if s.toList.head? = some '\t' then some (atoi s) else none
    | _ => none

/-- The usage line of a mode: the lines of the usage text that start with its number. -/
def usageLines (usageText : List Line) (mode : Int) : List Line :=
  usageText.filter fun l =>
    match l with
    | Line.text s => s.toList.head? = some '\t' && atoi s = mode
    | _ => false

end gblsim

/-! ## A plane sequence in order of position -/

namespace gblsim

/-- The DUT of `tscope_sps.cc` in mode 1 at the nominal material budget. -/
def spsDut : plane := ⟨tscope_sps.Z_DUT, 0.985e-2, false, none⟩

/-- The telescope planes of `tscope_sps.cc` in mode 1. -/
def spsTel : List plane :=
  (tscope_sps.Z_TEL 1).map fun zi => ⟨zi, tscope_sps.X_TPX3, true, some tscope_sps.RES⟩

/-- The planes of `tscope_sps.cc` in mode 1 with the DUT put after the third telescope
plane. -/
def spsByPosition : List plane :=
  spsTel.take 3 ++ spsDut :: spsTel.drop 3

end gblsim

/-! # Properties -/

namespace gblsim

/-! ## Plane construction -/

theorem scatterer_eq_some (z x : ℚ) (p : plane) :
    plane.scatterer z x = some p ↔ 0 ≤ x ∧ p = ⟨z, x, false, none⟩ := by
  unfold plane.scatterer
  by_cases hx : x < 0
  · simp [hx]
  · simp only [hx, if_false, Option.some.injEq]
    constructor
    · intro h; exact ⟨not_lt.mp hx, h.symm⟩
    · intro h; exact h.2.symm

theorem scatterer_of_nonneg (z x : ℚ) (hx : 0 ≤ x) :
    plane.scatterer z x = some ⟨z, x, false, none⟩ :=
  (scatterer_eq_some z x _).mpr ⟨hx, rfl⟩

theorem scatterer_of_neg (z x : ℚ) (hx : x < 0) : plane.scatterer z x = none := by
  simp [plane.scatterer, hx]

theorem measurement_eq_some (z x res : ℚ) (p : plane) :
    plane.measurement z x res = some p ↔ (0 ≤ x ∧ 0 ≤ res) ∧ p = ⟨z, x, true, some res⟩ := by
  unfold plane.measurement
  by_cases hx : x < 0 ∨ res < 0
  · simp only [hx, if_true]
    constructor
    · intro h; cases h
    · intro h
      rcases hx with hx | hx
      · exact absurd h.1.1 (not_le.mpr hx)
      · exact absurd h.1.2 (not_le.mpr hx)
  · simp only [hx, if_false, Option.some.injEq]
    have hx2 : 0 ≤ x ∧ 0 ≤ res := by
      constructor
      · exact not_lt.mp fun h => hx (Or.inl h)
      · exact not_lt.mp fun h => hx (Or.inr h)
    constructor
    · intro h; exact ⟨hx2, h.symm⟩
    · intro h; exact h.2.symm

theorem measurement_of_nonneg (z x res : ℚ) (hx : 0 ≤ x) (hres : 0 ≤ res) :
    plane.measurement z x res = some ⟨z, x, true, some res⟩ :=
  (measurement_eq_some z x res _).mpr ⟨⟨hx, hres⟩, rfl⟩

/-! ## The scan loop records the half-open progression -/

theorem scanBody_eq_some (oracle : Oracle) (tel : List plane) (Z E x : ℚ) (j : Nat)
    (s : ScanStep) :
    scanBody oracle tel Z E x j = some s ↔
      0 ≤ x ∧ s = ⟨j, x, ⟨tel ++ [⟨Z, x, false, none⟩], E, 3⟩, x * 100,
        oracle (tel ++ [⟨Z, x, false, none⟩]) E 3⟩ := by
  unfold scanBody
  by_cases hx : 0 ≤ x
  · rw [scatterer_of_nonneg Z x hx]
    simp only [Option.map_some', Option.some.injEq, hx, true_and]
    constructor
    · intro h; exact h.symm
    · intro h; exact h.symm
  · rw [scatterer_of_neg Z x (not_le.mp hx)]
    simp [hx]

theorem scanLoop_recorded_aux (oracle : Oracle) (tel : List plane) (Z E stop step : ℚ)
    (hstep : 0 < step) :
    ∀ (fuel : Nat) (x : ℚ) (j : Nat), 0 ≤ x → ⌈(stop - x) / step⌉₊ < fuel →
      ∃ steps : List ScanStep,
        scanLoop oracle tel Z E stop step fuel x j = some (steps, false) ∧
        (steps.map fun s => (s.j, s.dut_x0))
          = (List.range ⌈(stop - x) / step⌉₊).map fun k => (j + k, x + (k : ℚ) * step) := by
  intro fuel
  induction fuel with
  | zero => intro x j _ h; exact absurd h (Nat.not_lt_zero _)
  | succ fuel ih =>
    intro x j hx0 h
    by_cases hx : x < stop
    · have hpos : 0 < (stop - x) / step := div_pos (sub_pos.mpr hx) hstep
      have hceil : 0 < ⌈(stop - x) / step⌉₊ := Nat.ceil_pos.mpr hpos
      have hnext : ⌈(stop - (x + step)) / step⌉₊ = ⌈(stop - x) / step⌉₊ - 1 := by
        have hdiv : (stop - (x + step)) / step = (stop - x) / step - 1 := by
          field_simp
          ring
        rw [hdiv]
        refine eq_of_forall_ge_iff fun m => ?_
        rw [Nat.ceil_le, Nat.sub_le_iff_le_add, Nat.ceil_le, sub_le_iff_le_add]
        push_cast
        rfl
      have hfuel : ⌈(stop - (x + step)) / step⌉₊ < fuel := by omega
      obtain ⟨rest, hrest, hmap⟩ := ih (x + step) (j + 1) (by linarith) hfuel
      obtain ⟨n, hn⟩ : ∃ n, ⌈(stop - x) / step⌉₊ = n + 1 :=
        ⟨_, (Nat.succ_pred_eq_of_pos hceil).symm⟩
      rw [hnext, hn] at hmap
      have hbody : scanBody oracle tel Z E x j
          = some ⟨j, x, ⟨tel ++ [⟨Z, x, false, none⟩], E, 3⟩, x * 100,
              oracle (tel ++ [⟨Z, x, false, none⟩]) E 3⟩ :=
        (scanBody_eq_some oracle tel Z E x j _).mpr ⟨hx0, rfl⟩
      refine ⟨⟨j, x, ⟨tel ++ [⟨Z, x, false, none⟩], E, 3⟩, x * 100,
        oracle (tel ++ [⟨Z, x, false, none⟩]) E 3⟩ :: rest, ?_, ?_⟩
      · simp only [scanLoop, hx, if_true, hbody, hrest, Option.map_some']
      · rw [hn, List.range_succ_eq_map]
        simp only [List.map_cons, hmap, List.map_map, Nat.add_sub_cancel]
        congr 1
        · simp
        · apply List.map_congr_left
          intro k _
          simp only [Function.comp, Nat.succ_eq_add_one, Prod.mk.injEq]
          constructor
          · omega
          · push_cast; ring
    · have hle : (stop - x) / step ≤ 0 :=
        div_nonpos_of_nonpos_of_nonneg (by linarith) hstep.le
      have hz : ⌈(stop - x) / step⌉₊ = 0 := Nat.ceil_eq_zero.mpr hle
      exact ⟨[], by simp [scanLoop, hx], by simp [hz]⟩

theorem scanLoop_steps (oracle : Oracle) (tel : List plane) (Z E stop step : ℚ) :
    ∀ (fuel : Nat) (x : ℚ) (j : Nat) (r : List ScanStep × Bool),
      scanLoop oracle tel Z E stop step fuel x j = some r →
        ∀ s ∈ r.1, s.dut_x0 < stop ∧ scanBody oracle tel Z E s.dut_x0 s.j = some s := by
  intro fuel
  induction fuel with
  | zero => intro x j r h; simp [scanLoop] at h
  | succ fuel ih =>
    intro x j r h
    by_cases hx : x < stop
    · simp only [scanLoop, hx, if_true] at h
      cases hbody : scanBody oracle tel Z E x j with
      | none =>
        rw [hbody] at h
        simp only [Option.some.injEq] at h
        subst h
        intro s hs
        simp at hs
      | some s0 =>
        rw [hbody] at h
        cases hrec : scanLoop oracle tel Z E stop step fuel (x + step) (j + 1) with
        | none => rw [hrec] at h; simp at h
        | some rest =>
          rw [hrec] at h
          simp only [Option.map_some', Option.some.injEq] at h
          subst h
          intro s hs
          rcases List.mem_cons.mp hs with rfl | hs
          · have hs0 := (scanBody_eq_some oracle tel Z E x j s).mp hbody
            have hx0 : s.dut_x0 = x := by rw [hs0.2]
            have hj0 : s.j = j := by rw [hs0.2]
            rw [hx0, hj0]
            exact ⟨hx, hbody⟩
          · exact ih _ _ _ hrec s hs
    · simp only [scanLoop, hx, if_false, Option.some.injEq] at h
      subst h
      intro s hs
      simp at hs

end gblsim

/-! ## The histogram -/

namespace gblsim

theorem addBinContent_get (bin i : Nat) (cs : List Nat) :
    (addBinContent bin cs)[i]? = cs[i]?.map fun c => c + if i = bin then 1 else 0 := by
  induction cs generalizing bin i with
  | nil => cases bin <;> simp [addBinContent]
  | cons c cs ih =>
    cases bin with
    | zero =>
      cases i with
      | zero => simp [addBinContent]
      | succ i => simp [addBinContent]
    | succ b =>
      cases i with
      | zero => simp [addBinContent]
      | succ i => simp [addBinContent, ih]

theorem addBinContent_comm (a b : Nat) (cs : List Nat) :
    addBinContent a (addBinContent b cs) = addBinContent b (addBinContent a cs) := by
  induction cs generalizing a b with
  | nil => cases a <;> cases b <;> rfl
  | cons c cs ih =>
    cases a with
    | zero => cases b <;> rfl
    | succ a =>
      cases b with
      | zero => rfl
      | succ b => simp only [addBinContent, ih]

theorem Fill_axis (h : TH1F) (rnd : ℚ → ℚ) (x : ℚ) :
    (h.Fill rnd x).nbins = h.nbins ∧ (h.Fill rnd x).xmin = h.xmin ∧
      (h.Fill rnd x).xmax = h.xmax := by
  unfold TH1F.Fill
  dsimp only
  split <;> exact ⟨rfl, rfl, rfl⟩

theorem Fill_contents (h : TH1F) (rnd : ℚ → ℚ) (x : ℚ) :
    (h.Fill rnd x).contents = addBinContent (h.FindBin rnd x) h.contents := by
  unfold TH1F.Fill
  dsimp only
  split <;> rfl

theorem Fill_entries (h : TH1F) (rnd : ℚ → ℚ) (x : ℚ) :
    (h.Fill rnd x).entries = h.entries + 1 := by
  unfold TH1F.Fill
  dsimp only
  split <;> rfl

theorem FindBin_Fill (h : TH1F) (rnd : ℚ → ℚ) (x y : ℚ) :
    (h.Fill rnd x).FindBin rnd y = h.FindBin rnd y := by
  obtain ⟨h1, h2, h3⟩ := Fill_axis h rnd x
  unfold TH1F.FindBin
  rw [h1, h2, h3]

theorem FindBin_ne_zero (h : TH1F) (rnd : ℚ → ℚ) (x : ℚ) (hx : h.xmin ≤ x) :
    h.FindBin rnd x ≠ 0 := by
  unfold TH1F.FindBin
  rw [if_neg (not_lt.mpr hx)]
  split <;> omega

theorem fillAll_cons (h : TH1F) (rnd : ℚ → ℚ) (x : ℚ) (xs : List ℚ) :
    h.fillAll rnd (x :: xs) = (h.Fill rnd x).fillAll rnd xs := rfl

theorem fillAll_append (h : TH1F) (rnd : ℚ → ℚ) (xs : List ℚ) (x : ℚ) :
    h.fillAll rnd (xs ++ [x]) = (h.fillAll rnd xs).Fill rnd x := by
  simp [TH1F.fillAll, List.foldl_append]

theorem fillAll_entries (rnd : ℚ → ℚ) (xs : List ℚ) :
    ∀ h : TH1F, (h.fillAll rnd xs).entries = h.entries + xs.length := by
  induction xs with
  | nil => intro h; simp [TH1F.fillAll]
  | cons x xs ih =>
    intro h
    rw [fillAll_cons, ih, Fill_entries, List.length_cons]
    omega

/-- After filling, cell `i` holds its former content plus the number of outcomes whose
cell is `i`. -/
theorem fillAll_contents_get (rnd : ℚ → ℚ) (xs : List ℚ) :
    ∀ (h : TH1F) (i : Nat),
      (h.fillAll rnd xs).contents[i]?
        = h.contents[i]?.map fun c => c + xs.countP fun x => decide (h.FindBin rnd x = i) := by
  induction xs with
  | nil => intro h i; simp [TH1F.fillAll]
  | cons x xs ih =>
    intro h i
    rw [fillAll_cons, ih, Fill_contents, addBinContent_get]
    have hfb : (fun y => decide ((h.Fill rnd x).FindBin rnd y = i))
        = fun y => decide (h.FindBin rnd y = i) := by
      funext y
      rw [FindBin_Fill]
    rw [hfb, List.countP_cons]
    cases h.contents[i]? with
    | none => rfl
    | some c =>
      simp only [Option.map_some', Option.some.injEq]
      by_cases hi : h.FindBin rnd x = i
      · simp [hi]; omega
      · have hi2 : ¬ i = h.FindBin rnd x := fun e => hi e.symm
        simp [hi, hi2]

theorem new_entries (nbins : Nat) (xmin xmax : ℚ) : (TH1F.new nbins xmin xmax).entries = 0 :=
  rfl

theorem new_xmin (nbins : Nat) (xmin xmax : ℚ) : (TH1F.new nbins xmin xmax).xmin = xmin :=
  rfl

theorem new_contents_get (nbins : Nat) (xmin xmax : ℚ) (i : Nat) (hi : i < nbins + 2) :
    (TH1F.new nbins xmin xmax).contents[i]? = some 0 := by
  simp [TH1F.new, List.getElem?_replicate, hi]

/-- Cells of the histogram `new TH1F(..., nbins, xmin, xmax)` after filling: cell `i` holds
the number of outcomes whose cell is `i`. -/
theorem new_fillAll_contents_get (nbins : Nat) (xmin xmax : ℚ) (rnd : ℚ → ℚ) (xs : List ℚ)
    (i : Nat) (hi : i < nbins + 2) :
    ((TH1F.new nbins xmin xmax).fillAll rnd xs).contents[i]?
      = some (xs.countP fun x => decide ((TH1F.new nbins xmin xmax).FindBin rnd x = i)) := by
  rw [fillAll_contents_get, new_contents_get nbins xmin xmax i hi]
  simp

theorem new_fillAll_underflow (nbins : Nat) (xmin xmax : ℚ) (rnd : ℚ → ℚ) (xs : List ℚ)
    (hxs : ∀ x ∈ xs, xmin ≤ x) :
    ((TH1F.new nbins xmin xmax).fillAll rnd xs).contents[0]? = some 0 := by
  rw [new_fillAll_contents_get nbins xmin xmax rnd xs 0 (by omega)]
  congr 1
  rw [List.countP_eq_zero]
  intro x hx
  have := FindBin_ne_zero (TH1F.new nbins xmin xmax) rnd x (hxs x hx)
  simpa using this

end gblsim

/-! ## The Monte Carlo loop -/

namespace gblsim

/-- The state left by the Monte Carlo loop started on the histogram `h0` with the stream
`z`: the histogram is `h0` filled with the results of the calls made, in order; each call
is a realization built by `iteration` at some position of the stream; a loop that was
not aborted made `n` calls, and an aborted one made fewer and met a realization that
could not be built. -/
theorem mcLoop_spec (oracle : Oracle) (rnd : ℚ → ℚ)
    (iteration : TRandom3 → Option (OracleCall × TRandom3))
    (hz : ∀ r r2, iteration r = some r2 → r2.2.z = r.z) (n : Nat) (z : Nat → ℚ) (h0 : TH1F) :
    (mcLoop oracle rnd iteration n 0 ⟨⟨z, 0⟩, h0, [], false⟩).hResolution
      = h0.fillAll rnd ((mcLoop oracle rnd iteration n 0 ⟨⟨z, 0⟩, h0, [], false⟩).calls.map
          fun c => c.result oracle) ∧
    (∀ c ∈ (mcLoop oracle rnd iteration n 0 ⟨⟨z, 0⟩, h0, [], false⟩).calls,
      ∃ (pos : Nat) (r : TRandom3), iteration ⟨z, pos⟩ = some (c, r)) ∧
    ((mcLoop oracle rnd iteration n 0 ⟨⟨z, 0⟩, h0, [], false⟩).aborted = false →
      (mcLoop oracle rnd iteration n 0 ⟨⟨z, 0⟩, h0, [], false⟩).calls.length = n) ∧
    ((mcLoop oracle rnd iteration n 0 ⟨⟨z, 0⟩, h0, [], false⟩).aborted = true →
      (mcLoop oracle rnd iteration n 0 ⟨⟨z, 0⟩, h0, [], false⟩).calls.length < n ∧
      ∃ pos : Nat, iteration ⟨z, pos⟩ = none) := by
  have key : ∀ (k it : Nat) (st : MCState), n - it = k → it ≤ n →
      (st.rand.z = z ∧ st.aborted = false ∧ st.calls.length = it ∧
        st.hResolution = h0.fillAll rnd (st.calls.map fun c => c.result oracle) ∧
        ∀ c ∈ st.calls, ∃ (pos : Nat) (r : TRandom3), iteration ⟨z, pos⟩ = some (c, r)) →
      (mcLoop oracle rnd iteration n it st).hResolution
        = h0.fillAll rnd ((mcLoop oracle rnd iteration n it st).calls.map
            fun c => c.result oracle) ∧
      (∀ c ∈ (mcLoop oracle rnd iteration n it st).calls,
        ∃ (pos : Nat) (r : TRandom3), iteration ⟨z, pos⟩ = some (c, r)) ∧
      ((mcLoop oracle rnd iteration n it st).aborted = false →
        (mcLoop oracle rnd iteration n it st).calls.length = n) ∧
      ((mcLoop oracle rnd iteration n it st).aborted = true →
        (mcLoop oracle rnd iteration n it st).calls.length < n ∧
        ∃ pos : Nat, iteration ⟨z, pos⟩ = none) := by
    intro k
    induction k with
    | zero =>
      intro it st hk hle hP
      obtain ⟨_, h2, h3, h4, h5⟩ := hP
      have hit : ¬ it < n := by omega
      rw [mcLoop]
      simp only [hit, if_false]
      refine ⟨h4, h5, fun _ => by omega, fun h => ?_⟩
      rw [h2] at h
      cases h
    | succ k ih =>
      intro it st hk hle hP
      obtain ⟨h1, h2, h3, h4, h5⟩ := hP
      have hlt : it < n := by omega
      have hrand : st.rand = ⟨z, st.rand.pos⟩ := by
        cases hr : st.rand with
        | mk z2 p => simp only [hr] at h1; subst h1; rfl
      rw [mcLoop]
      simp only [hlt, if_true]
      cases hiter : iteration st.rand with
      | none =>
        dsimp only
        refine ⟨h4, h5, fun h => Bool.noConfusion h, fun _ => ⟨by omega, st.rand.pos, ?_⟩⟩
        rw [← hrand]
        exact hiter
      | some r =>
        dsimp only
        apply ih (it + 1) _ (by omega) (by omega)
        refine ⟨?_, h2, by simp [h3], ?_, ?_⟩
        · rw [hz st.rand r hiter]
          exact h1
        · simp only [List.map_append, List.map_cons, List.map_nil]
          rw [fillAll_append, ← h4]
        · intro c hc
          rcases List.mem_append.mp hc with hc | hc
          · exact h5 c hc
          · simp only [List.mem_singleton] at hc
            refine ⟨st.rand.pos, r.2, ?_⟩
            rw [hc, ← hrand]
            exact hiter
  exact key n 0 _ (by omega) (by omega) ⟨rfl, rfl, rfl, by simp [TH1F.fillAll], by simp⟩

theorem summarize_hResolution (rnd sqrt : ℚ → ℚ) (fit : Fit) (h : TH1F) :
    (summarize rnd sqrt fit h).hResolution
      = h.SetRangeUser (windowLo rnd (h.GetMean rnd) (h.GetRMS rnd sqrt))
          (windowHi rnd (h.GetMean rnd) (h.GetRMS rnd sqrt)) := by
  unfold summarize
  dsimp only
  split <;> rfl

theorem finish_ne_invalidPlane (file : Option String) : finish file ≠ Exit.invalidPlane := by
  unfold finish
  split <;> exact fun h => Exit.noConfusion h

/-- The shared Monte Carlo part of `main` when the loop was aborted. -/
theorem mcRun_of_aborted (oracle : Oracle) (rnd sqrt : ℚ → ℚ) (fit : Fit) (z : Nat → ℚ)
    (iteration : TRandom3 → Option (OracleCall × TRandom3)) (n : Nat)
    (file title : Option String) (out : List Line)
    (h : (mcLoop oracle rnd iteration n 0 ⟨⟨z, 0⟩, TH1F.new 1000 0 10, [], false⟩).aborted
      = true) :
    mcRun oracle rnd sqrt fit z iteration n file title out =
      { stdout := out ++ dispatchLines file
        opened := file
        built := (mcLoop oracle rnd iteration n 0
          ⟨⟨z, 0⟩, TH1F.new 1000 0 10, [], false⟩).calls.flatMap fun c => c.planes
        calls := (mcLoop oracle rnd iteration n 0
          ⟨⟨z, 0⟩, TH1F.new 1000 0 10, [], false⟩).calls
        points := []
        hResolution := some (mcLoop oracle rnd iteration n 0
          ⟨⟨z, 0⟩, TH1F.new 1000 0 10, [], false⟩).hResolution
        report := none
        title := none
        exit := Exit.invalidPlane } := by
  simp only [mcRun, h, if_true]

/-- The shared Monte Carlo part of `main` when the loop was not aborted. -/
theorem mcRun_of_completed (oracle : Oracle) (rnd sqrt : ℚ → ℚ) (fit : Fit) (z : Nat → ℚ)
    (iteration : TRandom3 → Option (OracleCall × TRandom3)) (n : Nat)
    (file title : Option String) (out : List Line)
    (h : (mcLoop oracle rnd iteration n 0 ⟨⟨z, 0⟩, TH1F.new 1000 0 10, [], false⟩).aborted
      = false) :
    mcRun oracle rnd sqrt fit z iteration n file title out =
      { stdout := out ++ dispatchLines file ++ (summarize rnd sqrt fit (mcLoop oracle rnd
          iteration n 0 ⟨⟨z, 0⟩, TH1F.new 1000 0 10, [], false⟩).hResolution).out
        opened := file
        built := (mcLoop oracle rnd iteration n 0
          ⟨⟨z, 0⟩, TH1F.new 1000 0 10, [], false⟩).calls.flatMap fun c => c.planes
        calls := (mcLoop oracle rnd iteration n 0
          ⟨⟨z, 0⟩, TH1F.new 1000 0 10, [], false⟩).calls
        points := []
        hResolution := some (summarize rnd sqrt fit (mcLoop oracle rnd
          iteration n 0 ⟨⟨z, 0⟩, TH1F.new 1000 0 10, [], false⟩).hResolution).hResolution
        report := (summarize rnd sqrt fit (mcLoop oracle rnd
          iteration n 0 ⟨⟨z, 0⟩, TH1F.new 1000 0 10, [], false⟩).hResolution).report
        title := if (summarize rnd sqrt fit (mcLoop oracle rnd iteration n 0
            ⟨⟨z, 0⟩, TH1F.new 1000 0 10, [], false⟩).hResolution).report.isSome
          then title else none
        exit := if (summarize rnd sqrt fit (mcLoop oracle rnd iteration n 0
            ⟨⟨z, 0⟩, TH1F.new 1000 0 10, [], false⟩).hResolution).report.isSome
          then finish file else Exit.nullFunction } := by
  simp only [mcRun, h, Bool.false_eq_true, if_false]

/-- The run left by the shared Monte Carlo part of `main`: every call is a realization
built by `iteration` at some position of the stream; the histogram has one entry per call
and cell `i` holds the number of results whose cell is `i`; a run that does not end at a
failed plane construction made `n` calls; one that does made fewer, met a realization
that could not be built, and reports nothing. -/
theorem mcRun_distribution (oracle : Oracle) (rnd sqrt : ℚ → ℚ) (fit : Fit) (z : Nat → ℚ)
    (iteration : TRandom3 → Option (OracleCall × TRandom3))
    (hz : ∀ r r2, iteration r = some r2 → r2.2.z = r.z)
    (n : Nat) (file title : Option String) (out : List Line) :
    (∀ c ∈ (mcRun oracle rnd sqrt fit z iteration n file title out).calls,
      ∃ (pos : Nat) (r : TRandom3), iteration ⟨z, pos⟩ = some (c, r)) ∧
    (∃ h : TH1F, (mcRun oracle rnd sqrt fit z iteration n file title out).hResolution = some h ∧
      h.GetEntries = (mcRun oracle rnd sqrt fit z iteration n file title out).calls.length ∧
      ∀ i : Nat, i < 1002 → h.contents[i]? = some
        (((mcRun oracle rnd sqrt fit z iteration n file title out).calls.map
            fun c => c.result oracle).countP
          fun x => decide ((TH1F.new 1000 0 10).FindBin rnd x = i))) ∧
    ((mcRun oracle rnd sqrt fit z iteration n file title out).exit ≠ Exit.invalidPlane →
      (mcRun oracle rnd sqrt fit z iteration n file title out).calls.length = n) ∧
    ((mcRun oracle rnd sqrt fit z iteration n file title out).exit = Exit.invalidPlane →
      (mcRun oracle rnd sqrt fit z iteration n file title out).calls.length < n ∧
      (∃ pos : Nat, iteration ⟨z, pos⟩ = none) ∧
      (mcRun oracle rnd sqrt fit z iteration n file title out).report = none) := by
  obtain ⟨h1, h2, h3, h4⟩ := mcLoop_spec oracle rnd iteration hz n z (TH1F.new 1000 0 10)
  cases hab : (mcLoop oracle rnd iteration n 0
      ⟨⟨z, 0⟩, TH1F.new 1000 0 10, [], false⟩).aborted with
  | true =>
    rw [mcRun_of_aborted oracle rnd sqrt fit z iteration n file title out hab]
    refine ⟨h2, ⟨_, rfl, ?_, ?_⟩, fun h => absurd rfl h, fun _ => ⟨(h4 hab).1, (h4 hab).2, rfl⟩⟩
    · dsimp only
      rw [h1]
      simp only [TH1F.GetEntries]
      rw [fillAll_entries, List.length_map, new_entries, Nat.zero_add]
    · intro i hi
      dsimp only
      rw [h1]
      exact new_fillAll_contents_get 1000 0 10 rnd _ i hi
  | false =>
    rw [mcRun_of_completed oracle rnd sqrt fit z iteration n file title out hab]
    refine ⟨h2, ⟨_, rfl, ?_, ?_⟩, fun _ => h3 hab, fun h => ?_⟩
    · rw [summarize_hResolution, h1]
      simp only [TH1F.GetEntries, TH1F.SetRangeUser]
      rw [fillAll_entries, List.length_map, new_entries, Nat.zero_add]
    · intro i hi
      rw [summarize_hResolution, h1]
      simp only [TH1F.SetRangeUser]
      exact new_fillAll_contents_get 1000 0 10 rnd _ i hi
    · exfalso
      simp only at h
      split at h
      · exact finish_ne_invalidPlane file h
      · exact Exit.noConfusion h

end gblsim

/-! ## One realization -/

namespace gblsim

theorem sampleTelescope_cons (ERR_Z X ERR_X RES ERR_RES a : ℚ) (zs : List ℚ) (r : TRandom3)
    (t : List plane × TRandom3) :
    sampleTelescope ERR_Z X ERR_X RES ERR_RES (a :: zs) r = some t ↔
      ∃ (p : plane) (rest : List plane × TRandom3),
        plane.measurement (a + ERR_Z * r.z r.pos) (X + ERR_X * r.z (r.pos + 1))
          (RES + ERR_RES * r.z (r.pos + 2)) = some p ∧
        sampleTelescope ERR_Z X ERR_X RES ERR_RES zs ⟨r.z, r.pos + 3⟩ = some rest ∧
        t = (p :: rest.1, rest.2) := by
  simp only [sampleTelescope, TRandom3.Gaus, Option.bind_eq_some, Option.map_eq_some']
  constructor
  · rintro ⟨p, hp, rest, hrest, rfl⟩
    exact ⟨p, rest, hp, hrest, rfl⟩
  · rintro ⟨p, rest, hp, hrest, rfl⟩
    exact ⟨p, hp, rest, hrest, rfl⟩

/-- What a successful telescope loop returns: the stream is unchanged, there is one plane
per position, and each plane is a measurement plane at the drawn position with
non-negative material budget `X + ERR_X * z` and non-negative resolution. -/
theorem sampleTelescope_some (ERR_Z X ERR_X RES ERR_RES : ℚ) :
    ∀ (zs : List ℚ) (r : TRandom3) (t : List plane × TRandom3),
      sampleTelescope ERR_Z X ERR_X RES ERR_RES zs r = some t →
        t.2.z = r.z ∧ t.1.length = zs.length ∧
        ∀ p ∈ t.1, p.isMeasurement = true ∧ 0 ≤ p.materialBudget ∧
          (∃ i : Nat, p.materialBudget = X + ERR_X * r.z i) ∧
          ∃ res : ℚ, p.intrinsicResolution = some res ∧ 0 ≤ res := by
  intro zs
  induction zs with
  | nil =>
    intro r t h
    simp only [sampleTelescope, Option.some.injEq] at h
    subst h
    exact ⟨rfl, rfl, fun p hp => by simp at hp⟩
  | cons a zs ih =>
    intro r t h
    obtain ⟨p, rest, hp, hrest, rfl⟩ := (sampleTelescope_cons _ _ _ _ _ _ _ _ _).mp h
    obtain ⟨h1, h2, h3⟩ := ih _ _ hrest
    obtain ⟨⟨hx, hres⟩, rfl⟩ := (measurement_eq_some _ _ _ _).mp hp
    refine ⟨h1, by simp [h2], ?_⟩
    intro q hq
    rcases List.mem_cons.mp hq with rfl | hq
    · exact ⟨rfl, hx, ⟨r.pos + 1, rfl⟩, _, rfl, hres⟩
    · exact h3 q hq

theorem sampleTelescope_zero_sigma (X RES : ℚ) :
    ∀ (zs : List ℚ) (r : TRandom3) (t : List plane × TRandom3),
      sampleTelescope 0 X 0 RES 0 zs r = some t →
        t.1 = zs.map fun zi => (⟨zi, X, true, some RES⟩ : plane) := by
  intro zs
  induction zs with
  | nil =>
    intro r t h
    simp only [sampleTelescope, Option.some.injEq] at h
    subst h
    rfl
  | cons a zs ih =>
    intro r t h
    obtain ⟨p, rest, hp, hrest, rfl⟩ := (sampleTelescope_cons _ _ _ _ _ _ _ _ _).mp h
    obtain ⟨_, rfl⟩ := (measurement_eq_some _ _ _ _).mp hp
    simp only [List.map_cons, ih _ _ hrest, zero_mul, add_zero]

/-- The telescope loop builds all its planes when every sampled material budget and
resolution is non-negative. -/
theorem sampleTelescope_isSome (ERR_Z X ERR_X RES ERR_RES : ℚ) (z : Nat → ℚ)
    (hX : ∀ i, 0 ≤ X + ERR_X * z i) (hR : ∀ i, 0 ≤ RES + ERR_RES * z i) :
    ∀ (zs : List ℚ) (pos : Nat),
      ∃ t, sampleTelescope ERR_Z X ERR_X RES ERR_RES zs ⟨z, pos⟩ = some t := by
  intro zs
  induction zs with
  | nil => intro pos; exact ⟨_, rfl⟩
  | cons a zs ih =>
    intro pos
    obtain ⟨rest, hrest⟩ := ih (pos + 3)
    exact ⟨_, (sampleTelescope_cons _ _ _ _ _ _ _ _ _).mpr
      ⟨_, rest, measurement_of_nonneg _ _ _ (hX _) (hR _), hrest, rfl⟩⟩

theorem telescopeSetup_of_nonneg (X RES : ℚ) (hX : 0 ≤ X) (hR : 0 ≤ RES) :
    ∀ zs : List ℚ,
      telescopeSetup X RES zs = some (zs.map fun zi => (⟨zi, X, true, some RES⟩ : plane)) := by
  intro zs
  induction zs with
  | nil => rfl
  | cons a zs ih =>
    simp only [telescopeSetup, measurement_of_nonneg a X RES hX hR, ih, Option.some_bind,
      Option.map_some', List.map_cons]

/-- What a successful iteration of `tscope_sps_MCerror.cc` returns. -/
theorem sps_iteration_some (v : tscope_sps_MCerror.Locals) (r : TRandom3)
    (c : OracleCall) (r2 : TRandom3) (h : tscope_sps_MCerror.iteration v r = some (c, r2)) :
    r2.z = r.z ∧ c.index = 3 ∧ c.energy = v.EBEAM ∧
    ∃ (tel : List plane) (t2 : TRandom3),
      sampleTelescope v.ERR_Z v.X_TPX3 v.ERR_X_TPX3 v.RES v.ERR_RES v.Z_TEL
        ⟨r.z, r.pos + 2⟩ = some (tel, t2) ∧
      0 ≤ v.X_DUT + v.ERR_X_DUT * r.z (r.pos + 1) ∧
      c.planes = tel ++ [⟨v.Z_DUT + v.ERR_Z * r.z r.pos,
        v.X_DUT + v.ERR_X_DUT * r.z (r.pos + 1), false, none⟩] := by
  simp only [tscope_sps_MCerror.iteration, TRandom3.Gaus, Option.bind_eq_some,
    Option.map_eq_some', Prod.mk.injEq] at h
  obtain ⟨dut, hdut, tel, htel, rfl, rfl⟩ := h
  obtain ⟨hx, rfl⟩ := (scatterer_eq_some _ _ _).mp hdut
  exact ⟨(sampleTelescope_some _ _ _ _ _ _ _ _ htel).1, rfl, rfl, tel.1, tel.2, htel, hx, rfl⟩

theorem sampleTimepix3_some (v : tscope_desy_MCerror.Locals) (r : TRandom3)
    (t : List plane × TRandom3) (h : tscope_desy_MCerror.sampleTimepix3 v r = some t) :
    t.2.z = r.z ∧
    t.1.length = (if v.mode = 1 ∨ v.mode = 3 then 1 else 0) ∧
    (t.1 = [] ∨ t.1 = [⟨v.Z_TPX3 + v.ERR_Z * r.z r.pos,
      v.X_TPX3 + v.ERR_X_TPX3 * r.z (r.pos + 1), true,
      some (v.RES_TPX3 + v.ERR_RES_TPX3 * r.z (r.pos + 2))⟩]) ∧
    ∀ p ∈ t.1, p.isMeasurement = true ∧ 0 ≤ p.materialBudget ∧
      (∃ i : Nat, p.materialBudget = v.X_TPX3 + v.ERR_X_TPX3 * r.z i) ∧
      ∃ res : ℚ, p.intrinsicResolution = some res ∧ 0 ≤ res := by
  unfold tscope_desy_MCerror.sampleTimepix3 at h
  by_cases hm : v.mode = 1 ∨ v.mode = 3
  · simp only [hm, if_true, TRandom3.Gaus, Option.map_eq_some'] at h
    obtain ⟨p, hp, rfl⟩ := h
    obtain ⟨⟨hx, hres⟩, rfl⟩ := (measurement_eq_some _ _ _ _).mp hp
    refine ⟨rfl, by simp [hm], Or.inr rfl, ?_⟩
    intro q hq
    simp only [List.mem_singleton] at hq
    subst hq
    exact ⟨rfl, hx, ⟨r.pos + 1, rfl⟩, _, rfl, hres⟩
  · simp only [hm, if_false, Option.some.injEq] at h
    subst h
    exact ⟨rfl, by simp [hm], Or.inl rfl, fun q hq => by simp at hq⟩

/-- What a successful iteration of `tscope_desy_MCerror.cc` returns. -/
theorem desy_iteration_some (v : tscope_desy_MCerror.Locals) (r : TRandom3)
    (c : OracleCall) (r2 : TRandom3) (h : tscope_desy_MCerror.iteration v r = some (c, r2)) :
    r2.z = r.z ∧ c.index = 3 ∧
    ∃ (tel tpx : List plane) (t2 t3 : TRandom3),
      sampleTelescope v.ERR_Z v.X_M26 v.ERR_X_M26 v.RES_M26 v.ERR_RES_M26 v.Z_TEL
        ⟨r.z, r.pos + 2⟩ = some (tel, t2) ∧
      tscope_desy_MCerror.sampleTimepix3 v t2 = some (tpx, t3) ∧
      0 ≤ v.X_DUT + v.ERR_X_DUT * r.z (r.pos + 1) ∧
      c.energy = v.EBEAM + v.ERR_EBEAM * t3.z t3.pos ∧
      c.planes = tel ++ tpx ++ [⟨v.Z_DUT + v.ERR_Z * r.z r.pos,
        v.X_DUT + v.ERR_X_DUT * r.z (r.pos + 1), false, none⟩] := by
  simp only [tscope_desy_MCerror.iteration, TRandom3.Gaus, Option.bind_eq_some,
    Option.map_eq_some', Prod.mk.injEq] at h
  obtain ⟨dut, hdut, tel, htel, tpx, htpx, rfl, rfl⟩ := h
  obtain ⟨hx, rfl⟩ := (scatterer_eq_some _ _ _).mp hdut
  refine ⟨?_, rfl, tel.1, tpx.1, tel.2, tpx.2, htel, htpx, hx, rfl, rfl⟩
  show tpx.2.z = r.z
  rw [(sampleTimepix3_some v _ _ htpx).1, (sampleTelescope_some _ _ _ _ _ _ _ _ htel).1]

theorem sps_iteration_z (v : tscope_sps_MCerror.Locals) :
    ∀ (r : TRandom3) (r2 : OracleCall × TRandom3),
      tscope_sps_MCerror.iteration v r = some r2 → r2.2.z = r.z :=
  fun r r2 h => (sps_iteration_some v r r2.1 r2.2 h).1

theorem desy_iteration_z (v : tscope_desy_MCerror.Locals) :
    ∀ (r : TRandom3) (r2 : OracleCall × TRandom3),
      tscope_desy_MCerror.iteration v r = some r2 → r2.2.z = r.z :=
  fun r r2 h => (desy_iteration_some v r r2.1 r2.2 h).1

end gblsim

/-! ## Runs of the Monte Carlo drivers -/

namespace gblsim

theorem sps_MCerror_main_proceed (oracle : Oracle) (rnd sqrt : ℚ → ℚ) (fit : Fit)
    (u : Indeterminate) (z : Nat → ℚ) (argv : List String) (mode : Int) (level : String)
    (out : List Line) (hargv : argv ≠ [])
    (hparse : parseArgs tscope_sps_MCerror.usageText argv u.mode "INFO" []
      = .proceed mode level out) :
    tscope_sps_MCerror.main oracle rnd sqrt fit u z argv
      = mcRun oracle rnd sqrt fit z
          (tscope_sps_MCerror.iteration (tscope_sps_MCerror.locals u mode)) 10000
          (tscope_sps_MCerror.outFile mode) (tscope_sps_MCerror.title mode) out := by
  simp only [tscope_sps_MCerror.main, hargv, if_false, hparse]

theorem desy_MCerror_main_proceed (oracle : Oracle) (rnd sqrt : ℚ → ℚ) (fit : Fit)
    (u : Indeterminate) (z : Nat → ℚ) (argv : List String) (mode : Int) (level : String)
    (out : List Line) (hargv : argv ≠ [])
    (hparse : parseArgs tscope_desy_MCerror.usageText argv u.mode "INFO" []
      = .proceed mode level out) :
    tscope_desy_MCerror.main oracle rnd sqrt fit u z argv
      = mcRun oracle rnd sqrt fit z
          (tscope_desy_MCerror.iteration (tscope_desy_MCerror.locals u mode)) 10000
          (tscope_desy_MCerror.outFile mode) (tscope_desy_MCerror.title mode) out := by
  simp only [tscope_desy_MCerror.main, hargv, if_false, hparse]

theorem budget_nonneg (X E z : ℚ) (hE : 0 ≤ E) (hX : E * (41 / 20) ≤ X) (hz : -41 / 20 ≤ z) :
    0 ≤ X + E * z := by
  nlinarith [mul_nonneg hE (by linarith : (0 : ℚ) ≤ z + 41 / 20)]

/-- In modes 1 to 4 of `tscope_sps_MCerror.cc` every realization can be built when no
standard draw is below `-41/20`. -/
theorem sps_iteration_isSome (u : Indeterminate) (mode : Int) (hmode : 1 ≤ mode ∧ mode ≤ 4)
    (z : Nat → ℚ) (hz : ∀ i, -41 / 20 ≤ z i) (pos : Nat) :
    tscope_sps_MCerror.iteration (tscope_sps_MCerror.locals u mode) ⟨z, pos⟩ ≠ none := by
  obtain ⟨h1, h2⟩ := hmode
  have hdut : 0 ≤ (tscope_sps_MCerror.locals u mode).X_DUT
      + (tscope_sps_MCerror.locals u mode).ERR_X_DUT * z (pos + 1) := by
    apply budget_nonneg _ _ _ _ _ (hz _)
    · interval_cases mode <;>
        norm_num [tscope_sps_MCerror.locals, tscope_sps_MCerror.ERR_X_DUT]
    · interval_cases mode <;>
        norm_num [tscope_sps_MCerror.locals, tscope_sps_MCerror.ERR_X_DUT,
          tscope_sps_MCerror.X_DUT]
  obtain ⟨t, ht⟩ := sampleTelescope_isSome (tscope_sps_MCerror.locals u mode).ERR_Z
    (tscope_sps_MCerror.locals u mode).X_TPX3 (tscope_sps_MCerror.locals u mode).ERR_X_TPX3
    (tscope_sps_MCerror.locals u mode).RES (tscope_sps_MCerror.locals u mode).ERR_RES z
    (fun i => budget_nonneg _ _ _ (by norm_num [tscope_sps_MCerror.locals])
      (by norm_num [tscope_sps_MCerror.locals]) (hz i))
    (fun i => budget_nonneg _ _ _ (by norm_num [tscope_sps_MCerror.locals])
      (by norm_num [tscope_sps_MCerror.locals]) (hz i))
    (tscope_sps_MCerror.locals u mode).Z_TEL (pos + 2)
  simp only [tscope_sps_MCerror.iteration, TRandom3.Gaus, scatterer_of_nonneg _ _ hdut, ht,
    Option.some_bind, Option.map_some']
  exact fun h => Option.noConfusion h

/-- In modes 1 to 4 of `tscope_desy_MCerror.cc` every realization can be built when no
standard draw is below `-41/20`. -/
theorem desy_iteration_isSome (u : Indeterminate) (mode : Int) (hmode : 1 ≤ mode ∧ mode ≤ 4)
    (z : Nat → ℚ) (hz : ∀ i, -41 / 20 ≤ z i) (pos : Nat) :
    tscope_desy_MCerror.iteration (tscope_desy_MCerror.locals u mode) ⟨z, pos⟩ ≠ none := by
  obtain ⟨h1, h2⟩ := hmode
  have hdut : 0 ≤ (tscope_desy_MCerror.locals u mode).X_DUT
      + (tscope_desy_MCerror.locals u mode).ERR_X_DUT * z (pos + 1) := by
    apply budget_nonneg _ _ _ _ _ (hz _)
    · interval_cases mode <;>
        norm_num [tscope_desy_MCerror.locals, tscope_desy_MCerror.ERR_X_DUT]
    · interval_cases mode <;>
        norm_num [tscope_desy_MCerror.locals, tscope_desy_MCerror.ERR_X_DUT,
          tscope_desy_MCerror.X_DUT]
  obtain ⟨t, ht⟩ := sampleTelescope_isSome (tscope_desy_MCerror.locals u mode).ERR_Z
    (tscope_desy_MCerror.locals u mode).X_M26 (tscope_desy_MCerror.locals u mode).ERR_X_M26
    (tscope_desy_MCerror.locals u mode).RES_M26 (tscope_desy_MCerror.locals u mode).ERR_RES_M26 z
    (fun i => budget_nonneg _ _ _ (by norm_num [tscope_desy_MCerror.locals])
      (by norm_num [tscope_desy_MCerror.locals]) (hz i))
    (fun i => budget_nonneg _ _ _ (by norm_num [tscope_desy_MCerror.locals])
      (by norm_num [tscope_desy_MCerror.locals]) (hz i))
    (tscope_desy_MCerror.locals u mode).Z_TEL (pos + 2)
  have htz : t.2.z = z := (sampleTelescope_some _ _ _ _ _ _ _ _ ht).1
  have htpx : ∃ t3, tscope_desy_MCerror.sampleTimepix3 (tscope_desy_MCerror.locals u mode) t.2
      = some t3 := by
    unfold tscope_desy_MCerror.sampleTimepix3
    split
    · simp only [TRandom3.Gaus, htz]
      rw [measurement_of_nonneg _ _ _
        (budget_nonneg _ _ _ (by norm_num [tscope_desy_MCerror.locals])
          (by norm_num [tscope_desy_MCerror.locals]) (hz _))
        (budget_nonneg _ _ _ (by norm_num [tscope_desy_MCerror.locals])
          (by norm_num [tscope_desy_MCerror.locals]) (hz _))]
      exact ⟨_, rfl⟩
    · exact ⟨_, rfl⟩
  obtain ⟨t3, ht3⟩ := htpx
  simp only [tscope_desy_MCerror.iteration, TRandom3.Gaus, scatterer_of_nonneg _ _ hdut, ht,
    ht3, Option.some_bind, Option.map_some']
  exact fun h => Option.noConfusion h

/-- The shared Monte Carlo part of `main` is not aborted when every realization can be
built. -/
theorem mcRun_not_aborted (oracle : Oracle) (rnd sqrt : ℚ → ℚ) (fit : Fit) (z : Nat → ℚ)
    (iteration : TRandom3 → Option (OracleCall × TRandom3))
    (hz : ∀ r r2, iteration r = some r2 → r2.2.z = r.z)
    (hsome : ∀ pos, iteration ⟨z, pos⟩ ≠ none)
    (n : Nat) (file title : Option String) (out : List Line) :
    (mcRun oracle rnd sqrt fit z iteration n file title out).exit ≠ Exit.invalidPlane := by
  intro h
  obtain ⟨_, ⟨pos, hpos⟩, _⟩ :=
    (mcRun_distribution oracle rnd sqrt fit z iteration hz n file title out).2.2.2 h
  exact hsome pos hpos

/-- The shared Monte Carlo part of `main` when the first realization cannot be built. -/
theorem mcRun_abort_first (oracle : Oracle) (rnd sqrt : ℚ → ℚ) (fit : Fit) (z : Nat → ℚ)
    (iteration : TRandom3 → Option (OracleCall × TRandom3))
    (hnone : iteration ⟨z, 0⟩ = none)
    (n : Nat) (hn : 0 < n) (file title : Option String) (out : List Line) :
    mcRun oracle rnd sqrt fit z iteration n file title out =
      { stdout := out ++ dispatchLines file
        opened := file
        built := []
        calls := []
        points := []
        hResolution := some (TH1F.new 1000 0 10)
        report := none
        title := none
        exit := Exit.invalidPlane } := by
  have hloop : mcLoop oracle rnd iteration n 0 ⟨⟨z, 0⟩, TH1F.new 1000 0 10, [], false⟩
      = ⟨⟨z, 0⟩, TH1F.new 1000 0 10, [], true⟩ := by
    rw [mcLoop]
    simp only [hn, if_true, hnone]
  rw [mcRun_of_aborted oracle rnd sqrt fit z iteration n file title out (by rw [hloop]), hloop]
  rfl

end gblsim

/-! ## Entries of the outcome distribution -/

namespace gblsim

/-- C2, as it holds with planes that reject invalid values: in a run of
`tscope_sps_MCerror.cc` or `tscope_desy_MCerror.cc` that gets past the argument loop, the
histogram is filled once per estimator call: it has as many entries as calls were made,
and cell `i` holds the number of call results whose cell is `i` (so cell 0, the cell of
negative values, is empty when the estimator never returns a negative value).  A run
that is not aborted by a failed plane construction made 10000 calls and has 10000
entries; an aborted run has fewer; and in modes 1 to 4 no run whose standard draws are
all at least `-41/20` is aborted. -/
theorem monte_carlo_fills_once_per_iteration (oracle : Oracle) (rnd sqrt : ℚ → ℚ) (fit : Fit)
    (u : Indeterminate) (z : Nat → ℚ) (argv : List String) (mode : Int) (level : String)
    (out : List Line) (hargv : argv ≠ [])
    (hparse : ∀ usageText, parseArgs usageText argv u.mode "INFO" []
      = .proceed mode level out) :
    ∀ run ∈ [tscope_sps_MCerror.main oracle rnd sqrt fit u z argv,
             tscope_desy_MCerror.main oracle rnd sqrt fit u z argv],
      (∃ h : TH1F, run.hResolution = some h ∧
        h.GetEntries = run.calls.length ∧
        (∀ i : Nat, i < 1002 → h.contents[i]? = some
          ((run.calls.map fun c => c.result oracle).countP
            fun x => decide ((TH1F.new 1000 0 10).FindBin rnd x = i))) ∧
        ((∀ planes energy k, 0 ≤ oracle planes energy k) → h.contents[0]? = some 0)) ∧
      (run.exit ≠ Exit.invalidPlane → run.calls.length = 10000) ∧
      (run.exit = Exit.invalidPlane → run.calls.length < 10000) ∧
      ((1 ≤ mode ∧ mode ≤ 4) → (∀ i, -41 / 20 ≤ z i) → run.exit ≠ Exit.invalidPlane) := by
  have hcell : ∀ (calls : List OracleCall), (∀ planes energy k, 0 ≤ oracle planes energy k) →
      ((calls.map fun c => c.result oracle).countP
        fun x => decide ((TH1F.new 1000 0 10).FindBin rnd x = 0)) = 0 := by
    intro calls hpos
    rw [List.countP_eq_zero]
    intro x hx
    obtain ⟨c, _, rfl⟩ := List.mem_map.mp hx
    have := FindBin_ne_zero (TH1F.new 1000 0 10) rnd (c.result oracle) (hpos _ _ _)
    simpa using this
  intro run hrun
  simp only [List.mem_cons, List.mem_singleton, List.not_mem_nil, or_false] at hrun
  rcases hrun with rfl | rfl
  · rw [sps_MCerror_main_proceed oracle rnd sqrt fit u z argv mode level out hargv (hparse _)]
    obtain ⟨_, ⟨h, h1, h2, h3⟩, h4, h5⟩ := mcRun_distribution oracle rnd sqrt fit z
      (tscope_sps_MCerror.iteration (tscope_sps_MCerror.locals u mode)) (sps_iteration_z _)
      10000 (tscope_sps_MCerror.outFile mode) (tscope_sps_MCerror.title mode) out
    refine ⟨⟨h, h1, h2, h3, fun hpos => ?_⟩, h4, fun hx => (h5 hx).1, fun hmode hz => ?_⟩
    · rw [h3 0 (by omega), hcell _ hpos]
    · exact mcRun_not_aborted oracle rnd sqrt fit z _ (sps_iteration_z _)
        (sps_iteration_isSome u mode hmode z hz) 10000 _ _ _
  · rw [desy_MCerror_main_proceed oracle rnd sqrt fit u z argv mode level out hargv (hparse _)]
    obtain ⟨_, ⟨h, h1, h2, h3⟩, h4, h5⟩ := mcRun_distribution oracle rnd sqrt fit z
      (tscope_desy_MCerror.iteration (tscope_desy_MCerror.locals u mode)) (desy_iteration_z _)
      10000 (tscope_desy_MCerror.outFile mode) (tscope_desy_MCerror.title mode) out
    refine ⟨⟨h, h1, h2, h3, fun hpos => ?_⟩, h4, fun hx => (h5 hx).1, fun hmode hz => ?_⟩
    · rw [h3 0 (by omega), hcell _ hpos]
    · exact mcRun_not_aborted oracle rnd sqrt fit z _ (desy_iteration_z _)
        (desy_iteration_isSome u mode hmode z hz) 10000 _ _ _

/-- Instance of `monte_carlo_fills_once_per_iteration` for the argument list `1`, an
estimator that always returns `5/2`, double rounding, and a generator whose draws are
all `0`. -/
theorem monte_carlo_fills_once_per_iteration_witness :
    (["1"] : List String) ≠ [] ∧
    (∀ usageText, parseArgs usageText ["1"] 0 "INFO" []
      = .proceed 1 "INFO" [Line.choseMode 1]) ∧
    ∀ run ∈ [tscope_sps_MCerror.main (fun _ _ _ => 5 / 2) binary64 (fun x => x)
               (fun _ => none) ⟨0, 0, 0, 0, 0⟩ (fun _ => 0) ["1"],
             tscope_desy_MCerror.main (fun _ _ _ => 5 / 2) binary64 (fun x => x)
               (fun _ => none) ⟨0, 0, 0, 0, 0⟩ (fun _ => 0) ["1"]],
      (∃ h : TH1F, run.hResolution = some h ∧
        h.GetEntries = run.calls.length ∧
        (∀ i : Nat, i < 1002 → h.contents[i]? = some
          ((run.calls.map fun c => c.result (fun _ _ _ => 5 / 2)).countP
            fun x => decide ((TH1F.new 1000 0 10).FindBin binary64 x = i))) ∧
        ((∀ (planes : List plane) (energy : ℚ) (k : Nat),
            (0 : ℚ) ≤ (fun _ _ _ => 5 / 2 : Oracle) planes energy k) →
          h.contents[0]? = some 0)) ∧
      (run.exit ≠ Exit.invalidPlane → run.calls.length = 10000) ∧
      (run.exit = Exit.invalidPlane → run.calls.length < 10000) ∧
      (((1 : Int) ≤ 1 ∧ (1 : Int) ≤ 4) → (∀ i : Nat, (-41 / 20 : ℚ) ≤ (fun _ => 0 : Nat → ℚ) i) →
        run.exit ≠ Exit.invalidPlane) :=
  ⟨by decide, fun _ => rfl,
    monte_carlo_fills_once_per_iteration (fun _ _ _ => 5 / 2) binary64 (fun x => x)
      (fun _ => none) ⟨0, 0, 0, 0, 0⟩ (fun _ => 0) ["1"] 1 "INFO" [Line.choseMode 1]
      (by decide) (fun _ => rfl)⟩

theorem sps_iteration_of_negative_draws :
    tscope_sps_MCerror.iteration (tscope_sps_MCerror.locals ⟨0, 0, 0, 0, 0⟩ 1)
      ⟨fun _ => -3, 0⟩ = none := by
  have hneg : (tscope_sps_MCerror.locals ⟨0, 0, 0, 0, 0⟩ 1).X_DUT
      + (tscope_sps_MCerror.locals ⟨0, 0, 0, 0, 0⟩ 1).ERR_X_DUT * (-3) < 0 := by
    norm_num [tscope_sps_MCerror.locals, tscope_sps_MCerror.X_DUT,
      tscope_sps_MCerror.ERR_X_DUT]
  simp only [tscope_sps_MCerror.iteration, TRandom3.Gaus, scatterer_of_neg _ _ hneg,
    Option.none_bind]

/-- C2 as stated fails for some random streams: in the run of `tscope_sps_MCerror.cc` with
argument `1` and a generator whose draws are all `-3`, the first DUT has material budget
`1.025e-2 - 3 * 0.5e-2 < 0`, its construction fails, and the run ends with no estimator
call made and an empty histogram instead of 10000 entries. -/
theorem run_aborted_by_invalid_plane :
    (tscope_sps_MCerror.main (fun _ _ _ => 5 / 2) binary64 (fun x => x) (fun _ => none)
        ⟨0, 0, 0, 0, 0⟩ (fun _ => -3) ["1"]).exit = Exit.invalidPlane ∧
    (tscope_sps_MCerror.main (fun _ _ _ => 5 / 2) binary64 (fun x => x) (fun _ => none)
        ⟨0, 0, 0, 0, 0⟩ (fun _ => -3) ["1"]).calls = [] ∧
    (tscope_sps_MCerror.main (fun _ _ _ => 5 / 2) binary64 (fun x => x) (fun _ => none)
        ⟨0, 0, 0, 0, 0⟩ (fun _ => -3) ["1"]).hResolution = some (TH1F.new 1000 0 10) ∧
    (TH1F.new 1000 0 10).GetEntries = 0 := by
  rw [sps_MCerror_main_proceed (fun _ _ _ => 5 / 2) binary64 (fun x => x) (fun _ => none)
    ⟨0, 0, 0, 0, 0⟩ (fun _ => -3) ["1"] 1 "INFO" [Line.choseMode 1] (by decide) rfl,
    mcRun_abort_first (fun _ _ _ => 5 / 2) binary64 (fun x => x) (fun _ => none) (fun _ => -3)
      _ sps_iteration_of_negative_draws 10000 (by decide)]
  exact ⟨rfl, rfl, rfl, rfl⟩

/-! ## Sign of the sampled material budget -/

/-- C5: for every mode, every random stream and every iteration, every plane of a
realization handed to the estimator by the Monte Carlo loop (telescope planes and DUT)
has `materialBudget >= 0`, and every intrinsic resolution is `>= 0`: the plane
constructors reject any other value, and a run in which a sampled value is negative ends
at that construction.  In modes 1 to 4 a run whose standard draws are all at least
`-41/20` hands all 10000 realizations to the estimator. -/
theorem material_budget_nonneg (oracle : Oracle) (rnd sqrt : ℚ → ℚ) (fit : Fit)
    (u : Indeterminate) (z : Nat → ℚ) (argv : List String) (mode : Int) (level : String)
    (out : List Line) (hargv : argv ≠ [])
    (hparse : ∀ usageText, parseArgs usageText argv u.mode "INFO" []
      = .proceed mode level out) :
    ∀ run ∈ [tscope_sps_MCerror.main oracle rnd sqrt fit u z argv,
             tscope_desy_MCerror.main oracle rnd sqrt fit u z argv],
      (∀ c ∈ run.calls, ∀ p ∈ c.planes,
        0 ≤ p.materialBudget ∧ ∀ res, p.intrinsicResolution = some res → 0 ≤ res) ∧
      ((1 ≤ mode ∧ mode ≤ 4) → (∀ i, -41 / 20 ≤ z i) → run.calls.length = 10000) := by
  intro run hrun
  simp only [List.mem_cons, List.mem_singleton, List.not_mem_nil, or_false] at hrun
  rcases hrun with rfl | rfl
  · rw [sps_MCerror_main_proceed oracle rnd sqrt fit u z argv mode level out hargv (hparse _)]
    obtain ⟨horigin, _, hlen, _⟩ := mcRun_distribution oracle rnd sqrt fit z _
      (sps_iteration_z (tscope_sps_MCerror.locals u mode))
      10000 (tscope_sps_MCerror.outFile mode) (tscope_sps_MCerror.title mode) out
    refine ⟨?_, fun hmode hz => hlen (mcRun_not_aborted oracle rnd sqrt fit z _
      (sps_iteration_z _) (sps_iteration_isSome u mode hmode z hz) 10000 _ _ _)⟩
    intro c hc p hp
    obtain ⟨pos, r, hiter⟩ := horigin c hc
    obtain ⟨_, _, _, tel, t2, htel, hdut, hplanes⟩ := sps_iteration_some _ _ _ _ hiter
    rw [hplanes] at hp
    rcases List.mem_append.mp hp with hp | hp
    · obtain ⟨_, hb, _, res, hres, hres0⟩ := (sampleTelescope_some _ _ _ _ _ _ _ _ htel).2.2 p hp
      refine ⟨hb, fun res2 h2 => ?_⟩
      rw [hres] at h2
      cases h2
      exact hres0
    · simp only [List.mem_singleton] at hp
      subst hp
      exact ⟨hdut, fun res2 h2 => by cases h2⟩
  · rw [desy_MCerror_main_proceed oracle rnd sqrt fit u z argv mode level out hargv (hparse _)]
    obtain ⟨horigin, _, hlen, _⟩ := mcRun_distribution oracle rnd sqrt fit z _
      (desy_iteration_z (tscope_desy_MCerror.locals u mode))
      10000 (tscope_desy_MCerror.outFile mode) (tscope_desy_MCerror.title mode) out
    refine ⟨?_, fun hmode hz => hlen (mcRun_not_aborted oracle rnd sqrt fit z _
      (desy_iteration_z _) (desy_iteration_isSome u mode hmode z hz) 10000 _ _ _)⟩
    intro c hc p hp
    obtain ⟨pos, r, hiter⟩ := horigin c hc
    obtain ⟨_, _, tel, tpx, t2, t3, htel, htpx, hdut, _, hplanes⟩ :=
      desy_iteration_some _ _ _ _ hiter
    rw [hplanes] at hp
    rcases List.mem_append.mp hp with hp | hp
    · rcases List.mem_append.mp hp with hp | hp
      · obtain ⟨_, hb, _, res, hres, hres0⟩ :=
          (sampleTelescope_some _ _ _ _ _ _ _ _ htel).2.2 p hp
        refine ⟨hb, fun res2 h2 => ?_⟩
        rw [hres] at h2
        cases h2
        exact hres0
      · obtain ⟨_, hb, _, res, hres, hres0⟩ := (sampleTimepix3_some _ _ _ htpx).2.2.2 p hp
        refine ⟨hb, fun res2 h2 => ?_⟩
        rw [hres] at h2
        cases h2
        exact hres0
    · simp only [List.mem_singleton] at hp
      subst hp
      exact ⟨hdut, fun res2 h2 => by cases h2⟩

/-- Instance of `material_budget_nonneg` for the argument list `1` and a generator whose
draws are all `-2`. -/
theorem material_budget_nonneg_witness :
    (["1"] : List String) ≠ [] ∧
    (∀ usageText, parseArgs usageText ["1"] 0 "INFO" []
      = .proceed 1 "INFO" [Line.choseMode 1]) ∧
    ∀ run ∈ [tscope_sps_MCerror.main (fun _ _ _ => 5 / 2) binary64 (fun x => x)
               (fun _ => none) ⟨0, 0, 0, 0, 0⟩ (fun _ => -2) ["1"],
             tscope_desy_MCerror.main (fun _ _ _ => 5 / 2) binary64 (fun x => x)
               (fun _ => none) ⟨0, 0, 0, 0, 0⟩ (fun _ => -2) ["1"]],
      (∀ c ∈ run.calls, ∀ p ∈ c.planes,
        0 ≤ p.materialBudget ∧ ∀ res, p.intrinsicResolution = some res → 0 ≤ res) ∧
      (((1 : Int) ≤ 1 ∧ (1 : Int) ≤ 4) →
        (∀ i : Nat, (-41 / 20 : ℚ) ≤ (fun _ => -2 : Nat → ℚ) i) →
        run.calls.length = 10000) :=
  ⟨by decide, fun _ => rfl,
    material_budget_nonneg (fun _ _ _ => 5 / 2) binary64 (fun x => x) (fun _ => none)
      ⟨0, 0, 0, 0, 0⟩ (fun _ => -2) ["1"] 1 "INFO" [Line.choseMode 1] (by decide)
      (fun _ => rfl)⟩

end gblsim

/-! ## Zero uncertainties give the nominal realization -/

namespace gblsim

theorem sps_iteration_zero_sigma (v : tscope_sps_MCerror.Locals) (r : TRandom3)
    (c : OracleCall) (r2 : TRandom3)
    (hZ : v.ERR_Z = 0) (hX : v.ERR_X_TPX3 = 0) (hR : v.ERR_RES = 0) (hD : v.ERR_X_DUT = 0)
    (h : tscope_sps_MCerror.iteration v r = some (c, r2)) :
    c = ⟨(v.Z_TEL.map fun zi => (⟨zi, v.X_TPX3, true, some v.RES⟩ : plane))
          ++ [⟨v.Z_DUT, v.X_DUT, false, none⟩], v.EBEAM, 3⟩ := by
  obtain ⟨_, h3, hE, tel, t2, htel, _, hplanes⟩ := sps_iteration_some v r c r2 h
  rw [hZ, hX, hR] at htel
  have ht := sampleTelescope_zero_sigma _ _ _ _ _ htel
  simp only at ht
  rw [ht, hZ, hD] at hplanes
  simp only [zero_mul, add_zero] at hplanes
  cases c
  simp only at hplanes h3 hE
  subst hplanes h3 hE
  rfl

theorem desy_iteration_zero_sigma (v : tscope_desy_MCerror.Locals) (r : TRandom3)
    (c : OracleCall) (r2 : TRandom3)
    (hZ : v.ERR_Z = 0) (hM : v.ERR_X_M26 = 0) (hRM : v.ERR_RES_M26 = 0)
    (hT : v.ERR_X_TPX3 = 0) (hRT : v.ERR_RES_TPX3 = 0) (hD : v.ERR_X_DUT = 0)
    (hE : v.ERR_EBEAM = 0)
    (h : tscope_desy_MCerror.iteration v r = some (c, r2)) :
    c = ⟨(v.Z_TEL.map fun zi => (⟨zi, v.X_M26, true, some v.RES_M26⟩ : plane))
          ++ (if v.mode = 1 ∨ v.mode = 3
              then [(⟨v.Z_TPX3, v.X_TPX3, true, some v.RES_TPX3⟩ : plane)] else [])
          ++ [⟨v.Z_DUT, v.X_DUT, false, none⟩], v.EBEAM, 3⟩ := by
  obtain ⟨_, h3, tel, tpx, t2, t3, htel, htpx, _, hen, hplanes⟩ :=
    desy_iteration_some v r c r2 h
  rw [hZ, hM, hRM] at htel
  have ht := sampleTelescope_zero_sigma _ _ _ _ _ htel
  simp only at ht
  obtain ⟨_, hlen, hshape, _⟩ := sampleTimepix3_some v t2 (tpx, t3) htpx
  simp only at hlen hshape
  have htp : tpx = if v.mode = 1 ∨ v.mode = 3
      then [(⟨v.Z_TPX3, v.X_TPX3, true, some v.RES_TPX3⟩ : plane)] else [] := by
    by_cases hm : v.mode = 1 ∨ v.mode = 3
    · rw [if_pos hm] at hlen ⊢
      rcases hshape with hs | hs
      · rw [hs] at hlen
        exact absurd hlen (by decide)
      · rw [hs, hZ, hT, hRT]
        simp only [zero_mul, add_zero]
    · rw [if_neg hm] at hlen ⊢
      exact List.length_eq_zero.mp hlen
  rw [ht, htp, hZ, hD] at hplanes
  rw [hE] at hen
  simp only [zero_mul, add_zero] at hplanes hen
  cases c
  simp only at hplanes h3 hen
  subst hplanes h3 hen
  rfl

theorem sps_iteration_isSome_zero_sigma (v : tscope_sps_MCerror.Locals) (z : Nat → ℚ)
    (hX : v.ERR_X_TPX3 = 0) (hR : v.ERR_RES = 0) (hD : v.ERR_X_DUT = 0)
    (hnn : 0 ≤ v.X_TPX3 ∧ 0 ≤ v.RES ∧ 0 ≤ v.X_DUT) (pos : Nat) :
    tscope_sps_MCerror.iteration v ⟨z, pos⟩ ≠ none := by
  obtain ⟨t, ht⟩ := sampleTelescope_isSome v.ERR_Z v.X_TPX3 v.ERR_X_TPX3 v.RES v.ERR_RES z
    (fun i => by rw [hX, zero_mul, add_zero]; exact hnn.1)
    (fun i => by rw [hR, zero_mul, add_zero]; exact hnn.2.1) v.Z_TEL (pos + 2)
  have hdut : 0 ≤ v.X_DUT + v.ERR_X_DUT * z (pos + 1) := by
    rw [hD, zero_mul, add_zero]; exact hnn.2.2
  simp only [tscope_sps_MCerror.iteration, TRandom3.Gaus, scatterer_of_nonneg _ _ hdut, ht,
    Option.some_bind, Option.map_some']
  exact fun h => Option.noConfusion h

theorem desy_iteration_isSome_zero_sigma (v : tscope_desy_MCerror.Locals) (z : Nat → ℚ)
    (hM : v.ERR_X_M26 = 0) (hRM : v.ERR_RES_M26 = 0)
    (hT : v.ERR_X_TPX3 = 0) (hRT : v.ERR_RES_TPX3 = 0) (hD : v.ERR_X_DUT = 0)
    (hnn : 0 ≤ v.X_M26 ∧ 0 ≤ v.RES_M26 ∧ 0 ≤ v.X_TPX3 ∧ 0 ≤ v.RES_TPX3 ∧ 0 ≤ v.X_DUT)
    (pos : Nat) :
    tscope_desy_MCerror.iteration v ⟨z, pos⟩ ≠ none := by
  obtain ⟨t, ht⟩ := sampleTelescope_isSome v.ERR_Z v.X_M26 v.ERR_X_M26 v.RES_M26 v.ERR_RES_M26 z
    (fun i => by rw [hM, zero_mul, add_zero]; exact hnn.1)
    (fun i => by rw [hRM, zero_mul, add_zero]; exact hnn.2.1) v.Z_TEL (pos + 2)
  have hdut : 0 ≤ v.X_DUT + v.ERR_X_DUT * z (pos + 1) := by
    rw [hD, zero_mul, add_zero]; exact hnn.2.2.2.2
  have htpx : ∃ t3, tscope_desy_MCerror.sampleTimepix3 v t.2 = some t3 := by
    unfold tscope_desy_MCerror.sampleTimepix3
    by_cases hm : v.mode = 1 ∨ v.mode = 3
    · simp only [hm, if_true, TRandom3.Gaus]
      rw [measurement_of_nonneg _ _ _ (by rw [hT, zero_mul, add_zero]; exact hnn.2.2.1)
        (by rw [hRT, zero_mul, add_zero]; exact hnn.2.2.2.1)]
      exact ⟨_, rfl⟩
    · simp only [hm, if_false]
      exact ⟨_, rfl⟩
  obtain ⟨t3, ht3⟩ := htpx
  simp only [tscope_desy_MCerror.iteration, TRandom3.Gaus, scatterer_of_nonneg _ _ hdut, ht,
    ht3, Option.some_bind, Option.map_some']
  exact fun h => Option.noConfusion h

/-- C3: with a normal draw taken as `nominal + sigma * z`, if every uncertainty of a
Monte Carlo driver is `0` then, for every random stream `z` and every number `n` of
iterations, each realization handed to the estimator is the nominal one: telescope plane
`i` at `Z_TEL[i]` with the nominal material budget and intrinsic resolution (then, in
the DESY driver and in the modes where it is added, the Timepix3 plane at `Z_TPX3` with
its nominal values), the DUT at `Z_DUT` with material budget `X_DUT`, and the beam
energy `EBEAM`; and when the nominal material budgets and resolutions are not negative,
all `n` realizations are handed to the estimator. -/
theorem zero_sigma_realization_is_nominal (oracle : Oracle) (rnd sqrt : ℚ → ℚ) (fit : Fit)
    (z : Nat → ℚ) (n : Nat) (file title : Option String) (out : List Line)
    (vs : tscope_sps_MCerror.Locals) (vd : tscope_desy_MCerror.Locals)
    (hs : vs.ERR_Z = 0 ∧ vs.ERR_X_TPX3 = 0 ∧ vs.ERR_RES = 0 ∧ vs.ERR_X_DUT = 0)
    (hd : vd.ERR_Z = 0 ∧ vd.ERR_X_M26 = 0 ∧ vd.ERR_RES_M26 = 0 ∧ vd.ERR_X_TPX3 = 0 ∧
      vd.ERR_RES_TPX3 = 0 ∧ vd.ERR_X_DUT = 0 ∧ vd.ERR_EBEAM = 0) :
    ((∀ c ∈ (mcRun oracle rnd sqrt fit z (tscope_sps_MCerror.iteration vs) n file title
          out).calls,
        c.planes = (vs.Z_TEL.map fun zi => (⟨zi, vs.X_TPX3, true, some vs.RES⟩ : plane))
            ++ [⟨vs.Z_DUT, vs.X_DUT, false, none⟩] ∧
        c.energy = vs.EBEAM) ∧
      (0 ≤ vs.X_TPX3 ∧ 0 ≤ vs.RES ∧ 0 ≤ vs.X_DUT →
        (mcRun oracle rnd sqrt fit z (tscope_sps_MCerror.iteration vs) n file title
          out).calls.length = n)) ∧
    ((∀ c ∈ (mcRun oracle rnd sqrt fit z (tscope_desy_MCerror.iteration vd) n file title
          out).calls,
        c.planes = (vd.Z_TEL.map fun zi => (⟨zi, vd.X_M26, true, some vd.RES_M26⟩ : plane))
            ++ (if vd.mode = 1 ∨ vd.mode = 3
                then [(⟨vd.Z_TPX3, vd.X_TPX3, true, some vd.RES_TPX3⟩ : plane)] else [])
            ++ [⟨vd.Z_DUT, vd.X_DUT, false, none⟩] ∧
        c.energy = vd.EBEAM) ∧
      (0 ≤ vd.X_M26 ∧ 0 ≤ vd.RES_M26 ∧ 0 ≤ vd.X_TPX3 ∧ 0 ≤ vd.RES_TPX3 ∧ 0 ≤ vd.X_DUT →
        (mcRun oracle rnd sqrt fit z (tscope_desy_MCerror.iteration vd) n file title
          out).calls.length = n)) := by
  obtain ⟨hs1, hs2, hs3, hs4⟩ := hs
  obtain ⟨hd1, hd2, hd3, hd4, hd5, hd6, hd7⟩ := hd
  refine ⟨⟨?_, ?_⟩, ⟨?_, ?_⟩⟩
  · intro c hc
    obtain ⟨pos, r, hiter⟩ := (mcRun_distribution oracle rnd sqrt fit z
      (tscope_sps_MCerror.iteration vs) (sps_iteration_z _) n file title out).1 c hc
    rw [sps_iteration_zero_sigma vs _ c r hs1 hs2 hs3 hs4 hiter]
    exact ⟨rfl, rfl⟩
  · intro hnn
    exact (mcRun_distribution oracle rnd sqrt fit z
      (tscope_sps_MCerror.iteration vs) (sps_iteration_z _) n file title out).2.2.1
      (mcRun_not_aborted oracle rnd sqrt fit z _ (sps_iteration_z _)
        (sps_iteration_isSome_zero_sigma vs z hs2 hs3 hs4 hnn) n file title out)
  · intro c hc
    obtain ⟨pos, r, hiter⟩ := (mcRun_distribution oracle rnd sqrt fit z
      (tscope_desy_MCerror.iteration vd) (desy_iteration_z _) n file title out).1 c hc
    rw [desy_iteration_zero_sigma vd _ c r hd1 hd2 hd3 hd4 hd5 hd6 hd7 hiter]
    exact ⟨rfl, rfl⟩
  · intro hnn
    exact (mcRun_distribution oracle rnd sqrt fit z
      (tscope_desy_MCerror.iteration vd) (desy_iteration_z _) n file title out).2.2.1
      (mcRun_not_aborted oracle rnd sqrt fit z _ (desy_iteration_z _)
        (desy_iteration_isSome_zero_sigma vd z hd2 hd3 hd4 hd5 hd6 hnn) n file title out)

/-- Instance of `zero_sigma_realization_is_nominal` at the mode 1 tables of both drivers
with the uncertainties set to `0`, 10000 iterations and the stream `z i = i`. -/
theorem zero_sigma_realization_is_nominal_witness :
    (spsFixed.ERR_Z = 0 ∧ spsFixed.ERR_X_TPX3 = 0 ∧ spsFixed.ERR_RES = 0 ∧
      spsFixed.ERR_X_DUT = 0) ∧
    (desyFixed.ERR_Z = 0 ∧ desyFixed.ERR_X_M26 = 0 ∧ desyFixed.ERR_RES_M26 = 0 ∧
      desyFixed.ERR_X_TPX3 = 0 ∧ desyFixed.ERR_RES_TPX3 = 0 ∧ desyFixed.ERR_X_DUT = 0 ∧
      desyFixed.ERR_EBEAM = 0) ∧
    ((∀ c ∈ (mcRun (fun _ _ _ => 5 / 2) (fun x => x) (fun x => x) (fun _ => none)
          (fun i => (i : ℚ)) (tscope_sps_MCerror.iteration spsFixed) 10000 none none
          []).calls,
        c.planes = (spsFixed.Z_TEL.map fun zi =>
              (⟨zi, spsFixed.X_TPX3, true, some spsFixed.RES⟩ : plane))
            ++ [⟨spsFixed.Z_DUT, spsFixed.X_DUT, false, none⟩] ∧
        c.energy = spsFixed.EBEAM) ∧
      (0 ≤ spsFixed.X_TPX3 ∧ 0 ≤ spsFixed.RES ∧ 0 ≤ spsFixed.X_DUT →
        (mcRun (fun _ _ _ => 5 / 2) (fun x => x) (fun x => x) (fun _ => none)
          (fun i => (i : ℚ)) (tscope_sps_MCerror.iteration spsFixed) 10000 none none
          []).calls.length = 10000)) ∧
    ((∀ c ∈ (mcRun (fun _ _ _ => 5 / 2) (fun x => x) (fun x => x) (fun _ => none)
          (fun i => (i : ℚ)) (tscope_desy_MCerror.iteration desyFixed) 10000 none none
          []).calls,
        c.planes = (desyFixed.Z_TEL.map fun zi =>
              (⟨zi, desyFixed.X_M26, true, some desyFixed.RES_M26⟩ : plane))
            ++ (if desyFixed.mode = 1 ∨ desyFixed.mode = 3
                then [(⟨desyFixed.Z_TPX3, desyFixed.X_TPX3, true,
                  some desyFixed.RES_TPX3⟩ : plane)]
                else [])
            ++ [⟨desyFixed.Z_DUT, desyFixed.X_DUT, false, none⟩] ∧
        c.energy = desyFixed.EBEAM) ∧
      (0 ≤ desyFixed.X_M26 ∧ 0 ≤ desyFixed.RES_M26 ∧ 0 ≤ desyFixed.X_TPX3 ∧
          0 ≤ desyFixed.RES_TPX3 ∧ 0 ≤ desyFixed.X_DUT →
        (mcRun (fun _ _ _ => 5 / 2) (fun x => x) (fun x => x) (fun _ => none)
          (fun i => (i : ℚ)) (tscope_desy_MCerror.iteration desyFixed) 10000 none none
          []).calls.length = 10000)) :=
  ⟨⟨rfl, rfl, rfl, rfl⟩, ⟨rfl, rfl, rfl, rfl, rfl, rfl, rfl⟩,
    zero_sigma_realization_is_nominal (fun _ _ _ => 5 / 2) (fun x => x) (fun x => x)
      (fun _ => none) (fun i => (i : ℚ)) 10000 none none [] spsFixed desyFixed
      ⟨rfl, rfl, rfl, rfl⟩ ⟨rfl, rfl, rfl, rfl, rfl, rfl, rfl⟩⟩

end gblsim

/-! ## Where the DUT sits in the plane sequence -/

namespace gblsim

theorem desy_Z_TEL_length (mode : Int) (hmode : 1 ≤ mode ∧ mode ≤ 6) :
    (tscope_desy_MCerror.Z_TEL mode).length = 6 := by
  obtain ⟨h1, h2⟩ := hmode
  interval_cases mode <;> simp [tscope_desy_MCerror.Z_TEL]

theorem sps_tpx3_tel (mode : Int) :
    tscope_sps.tpx3_tel mode = some ((tscope_sps.Z_TEL mode).map fun zi =>
      (⟨zi, tscope_sps.X_TPX3, true, some tscope_sps.RES⟩ : plane)) :=
  telescopeSetup_of_nonneg _ _ (by norm_num [tscope_sps.X_TPX3])
    (by norm_num [tscope_sps.RES]) _

theorem sps_X_DUT_bounds (u : Indeterminate) (mode : Int) (hmode : 1 ≤ mode ∧ mode ≤ 4) :
    0 < (tscope_sps.X_DUT mode).getD u.X_DUT ∧ (tscope_sps.X_DUT mode).getD u.X_DUT ≤ 2.4e-2 := by
  obtain ⟨h1, h2⟩ := hmode
  interval_cases mode <;> norm_num [tscope_sps.X_DUT]

/-- In modes 1 to 4 the scan loop ends by its test within 49 tests, after at least one
pass. -/
theorem sps_scan_terminates (oracle : Oracle) (u : Indeterminate) (mode : Int)
    (hmode : 1 ≤ mode ∧ mode ≤ 4) (fuel : Nat) (hfuel : 48 < fuel) (tel : List plane) :
    ∃ steps : List ScanStep, tscope_sps.scan oracle u fuel mode tel = some (steps, false) ∧
      steps ≠ [] := by
  have hstep : (0 : ℚ) < 0.0001 := by norm_num
  obtain ⟨hx0, hx⟩ := sps_X_DUT_bounds u mode hmode
  have hbound : ⌈((tscope_sps.X_DUT mode).getD u.X_DUT * (1 + tscope_sps.vary_x)
      - (tscope_sps.X_DUT mode).getD u.X_DUT * (1 - tscope_sps.vary_x)) / 0.0001⌉₊ < fuel := by
    refine lt_of_le_of_lt (Nat.ceil_le.mpr ?_) hfuel
    simp only [tscope_sps.vary_x]
    norm_num
    linarith
  have hstart : 0 ≤ (tscope_sps.X_DUT mode).getD u.X_DUT * (1 - tscope_sps.vary_x) := by
    simp only [tscope_sps.vary_x]
    nlinarith
  obtain ⟨steps, hsteps, hmap⟩ := scanLoop_recorded_aux oracle tel tscope_sps.Z_DUT
    tscope_sps.EBEAM _ _ hstep fuel _ 0 hstart hbound
  refine ⟨steps, hsteps, ?_⟩
  intro hnil
  rw [hnil] at hmap
  have hceil : 0 < ⌈((tscope_sps.X_DUT mode).getD u.X_DUT * (1 + tscope_sps.vary_x)
      - (tscope_sps.X_DUT mode).getD u.X_DUT * (1 - tscope_sps.vary_x)) / 0.0001⌉₊ := by
    apply Nat.ceil_pos.mpr
    apply div_pos _ hstep
    simp only [tscope_sps.vary_x]
    nlinarith
  obtain ⟨n, hn⟩ : ∃ n, ⌈((tscope_sps.X_DUT mode).getD u.X_DUT * (1 + tscope_sps.vary_x)
      - (tscope_sps.X_DUT mode).getD u.X_DUT * (1 - tscope_sps.vary_x)) / 0.0001⌉₊ = n + 1 :=
    ⟨_, (Nat.succ_pred_eq_of_pos hceil).symm⟩
  rw [hn, List.range_succ_eq_map] at hmap
  simp at hmap

/-- What `main` of `tscope_sps.cc` returns once the argument loop has set the mode. -/
theorem sps_main_proceed (oracle : Oracle) (u : Indeterminate) (fuel : Nat)
    (argv : List String) (mode : Int) (level : String) (out : List Line)
    (hparse : parseArgs tscope_sps.usageText argv u.mode "INFO" [] = .proceed mode level out) :
    tscope_sps.main oracle u fuel argv =
      (tscope_sps.scan oracle u fuel mode ((tscope_sps.Z_TEL mode).map fun zi =>
          (⟨zi, tscope_sps.X_TPX3, true, some tscope_sps.RES⟩ : plane))).map fun r =>
        { stdout := out ++ dispatchLines (tscope_sps.outFile mode)
          opened := tscope_sps.outFile mode
          built := ((tscope_sps.Z_TEL mode).map fun zi =>
              (⟨zi, tscope_sps.X_TPX3, true, some tscope_sps.RES⟩ : plane))
            ++ r.1.map fun s => (⟨tscope_sps.Z_DUT, s.dut_x0, false, none⟩ : plane)
          calls := r.1.map fun s => s.call
          points := r.1.map fun s => (s.j, s.pointX, s.pointY)
          hResolution := none
          report := none
          title := if r.2 then none else tscope_sps.title mode
          exit := if r.2 then Exit.invalidPlane else finish (tscope_sps.outFile mode) } := by
  simp only [tscope_sps.main, hparse, sps_tpx3_tel]

/-- Every pass of the scan of `tscope_sps.cc` is the loop body at its material budget. -/
theorem sps_scan_steps (oracle : Oracle) (u : Indeterminate) (mode : Int) (fuel : Nat)
    (tel : List plane) (r : List ScanStep × Bool)
    (h : tscope_sps.scan oracle u fuel mode tel = some r) :
    ∀ s ∈ r.1, s = ⟨s.j, s.dut_x0,
      ⟨tel ++ [⟨tscope_sps.Z_DUT, s.dut_x0, false, none⟩], tscope_sps.EBEAM, 3⟩,
      s.dut_x0 * 100,
      oracle (tel ++ [⟨tscope_sps.Z_DUT, s.dut_x0, false, none⟩]) tscope_sps.EBEAM 3⟩ := by
  intro s hs
  exact ((scanBody_eq_some oracle tel _ _ _ _ _).mp
    (scanLoop_steps oracle _ _ _ _ _ fuel _ 0 r h s hs).2).2

end gblsim

namespace gblsim

end gblsim

/-! ## What the scan changes from step to step -/

namespace gblsim

theorem zip_map_mem {α β γ : Type} (f : α → β) (g : α → γ) (l : List α) (p : β × γ)
    (hp : p ∈ (l.map f).zip (l.map g)) : ∃ a ∈ l, p = (f a, g a) := by
  induction l with
  | nil => simp at hp
  | cons a l ih =>
    simp only [List.map_cons, List.zip_cons_cons, List.mem_cons] at hp
    rcases hp with rfl | hp
    · exact ⟨a, List.mem_cons_self _ _, rfl⟩
    · obtain ⟨b, hb, rfl⟩ := ih hp
      exact ⟨b, List.mem_cons_of_mem _ hb, rfl⟩

/-- C11: in a run of `tscope_sps.cc` for a mode from 1 to 4, every scan step hands to the
estimator the telescope planes at their nominal values (`Z_TEL[i]`, `X_TPX3 = 4.0e-2`,
measurement, `RES = 4e-3`) followed by the DUT at `Z_DUT = 105` as a plane without
measurement, with beam energy `EBEAM = 120` and index 3; the point recorded for the step
has `x = dut_x0 * 100` for the material budget `dut_x0` of that DUT and `y` the value of
the estimator; and two steps differ at most in the material budget of the DUT. -/
theorem scan_changes_only_dut_budget (oracle : Oracle) (u : Indeterminate) (fuel : Nat)
    (argv : List String) (mode : Int) (level : String) (out : List Line)
    (hparse : parseArgs tscope_sps.usageText argv u.mode "INFO" []
      = .proceed mode level out)
    (hmode : 1 ≤ mode ∧ mode ≤ 4) (hfuel : 48 < fuel) :
    ∃ run : Run, tscope_sps.main oracle u fuel argv = some run ∧
      run.calls.length = run.points.length ∧
      (∀ p ∈ run.calls.zip run.points, ∃ dut_x0 : ℚ,
        p.1.planes = ((tscope_sps.Z_TEL mode).map fun zi =>
            (⟨zi, 4.0e-2, true, some 4e-3⟩ : plane)) ++ [⟨105.0, dut_x0, false, none⟩] ∧
        p.1.energy = 120.0 ∧ p.1.index = 3 ∧
        p.2.2.1 = dut_x0 * 100 ∧
        p.2.2.2 = oracle p.1.planes p.1.energy 3) ∧
      (∀ c1 ∈ run.calls, ∀ c2 ∈ run.calls,
        c1.energy = c2.energy ∧ c1.index = c2.index ∧
        c1.planes.dropLast = c2.planes.dropLast ∧
        ∃ x1 x2 : ℚ, c1.planes.getLast? = some ⟨105.0, x1, false, none⟩ ∧
          c2.planes.getLast? = some ⟨105.0, x2, false, none⟩) := by
  obtain ⟨steps, hsteps, _⟩ := sps_scan_terminates oracle u mode hmode fuel hfuel
    ((tscope_sps.Z_TEL mode).map fun zi =>
      (⟨zi, tscope_sps.X_TPX3, true, some tscope_sps.RES⟩ : plane))
  have hbody := sps_scan_steps oracle u mode fuel _ _ hsteps
  rw [sps_main_proceed oracle u fuel argv mode level out hparse, hsteps]
  refine ⟨_, rfl, ?_, ?_, ?_⟩
  · simp only [List.length_map]
  · intro p hp
    obtain ⟨s, hs, rfl⟩ := zip_map_mem _ _ steps p hp
    refine ⟨s.dut_x0, ?_⟩
    dsimp only
    rw [hbody s hs]
    exact ⟨rfl, rfl, rfl, rfl, rfl⟩
  · intro c1 hc1 c2 hc2
    simp only [List.mem_map] at hc1 hc2
    obtain ⟨s1, hs1, rfl⟩ := hc1
    obtain ⟨s2, hs2, rfl⟩ := hc2
    rw [hbody s1 hs1, hbody s2 hs2]
    simp only [List.dropLast_concat, true_and]
    refine ⟨s1.dut_x0, s2.dut_x0, ?_, ?_⟩ <;> simp [tscope_sps.Z_DUT]

/-- Instance of `scan_changes_only_dut_budget` for the argument list `1`. -/
theorem scan_changes_only_dut_budget_witness :
    parseArgs tscope_sps.usageText ["1"] 0 "INFO" [] = .proceed 1 "INFO" [Line.choseMode 1] ∧
    ((1 : Int) ≤ 1 ∧ (1 : Int) ≤ 4) ∧ 48 < 49 ∧
    ∃ run : Run, tscope_sps.main (fun _ _ _ => 5 / 2) ⟨0, 0, 0, 0, 0⟩ 49 ["1"] = some run ∧
      run.calls.length = run.points.length ∧
      (∀ p ∈ run.calls.zip run.points, ∃ dut_x0 : ℚ,
        p.1.planes = ((tscope_sps.Z_TEL 1).map fun zi =>
            (⟨zi, 4.0e-2, true, some 4e-3⟩ : plane)) ++ [⟨105.0, dut_x0, false, none⟩] ∧
        p.1.energy = 120.0 ∧ p.1.index = 3 ∧
        p.2.2.1 = dut_x0 * 100 ∧
        p.2.2.2 = (fun _ _ _ => 5 / 2 : Oracle) p.1.planes p.1.energy 3) ∧
      (∀ c1 ∈ run.calls, ∀ c2 ∈ run.calls,
        c1.energy = c2.energy ∧ c1.index = c2.index ∧
        c1.planes.dropLast = c2.planes.dropLast ∧
        ∃ x1 x2 : ℚ, c1.planes.getLast? = some ⟨105.0, x1, false, none⟩ ∧
          c2.planes.getLast? = some ⟨105.0, x2, false, none⟩) :=
  ⟨rfl, by decide, by decide,
    scan_changes_only_dut_budget (fun _ _ _ => 5 / 2) ⟨0, 0, 0, 0, 0⟩ 49 ["1"] 1 "INFO"
      [Line.choseMode 1] rfl (by decide) (by decide)⟩

end gblsim

/-! ## Usage text and mode 0 -/

namespace gblsim

theorem parseArgs_verbosity (usageText : List Line) (rest : List String) (out : List Line) :
    ∀ (levels : List String) (mode : Int) (level : String),
      parseArgs usageText (verbosityArgs levels ++ rest) mode level out
        = parseArgs usageText rest mode (levels.getLastD level) out := by
  intro levels
  induction levels with
  | nil => intro mode level; rfl
  | cons l ls ih =>
    intro mode level
    have hcons : verbosityArgs (l :: ls) ++ rest = "-v" :: l :: (verbosityArgs ls ++ rest) := by
      simp [verbosityArgs]
    rw [hcons, parseArgs]
    simp only [if_true]
    rw [ih]
    cases ls <;> rfl

theorem parseArgs_zero (usageText : List Line) (levels : List String) (a : String)
    (rest : List String) (ha : a ≠ "-v") (h0 : atoi a = 0) (mode : Int) :
    parseArgs usageText (verbosityArgs levels ++ a :: rest) mode "INFO" []
      = .usage usageText := by
  rw [parseArgs_verbosity]
  unfold parseArgs
  simp only [ha, h0, if_false, if_true, List.nil_append]

theorem verbosityArgs_append_ne_nil (levels : List String) (a : String) (rest : List String) :
    verbosityArgs levels ++ a :: rest ≠ [] := by
  simp

/-- C6, as the drivers have it: for each of the three programs and every argument list
that, after any number of `-v <level>` pairs, has a mode argument read as `0` by `atoi`,
the program prints its usage text and returns status 0 with no output file opened, no
plane built and no estimator call; and with no argument at all the two Monte Carlo
programs print `Please choose a mode!` and return status 0, likewise without file, plane
or estimator call. -/
theorem usage_on_mode_zero (oracle : Oracle) (rnd sqrt : ℚ → ℚ) (fit : Fit) (u : Indeterminate)
    (z : Nat → ℚ) (fuel : Nat) (levels : List String) (a : String) (rest : List String)
    (ha : a ≠ "-v") (h0 : atoi a = 0) :
    (∃ scanRun : Run,
      tscope_sps.main oracle u fuel (verbosityArgs levels ++ a :: rest) = some scanRun ∧
      ∀ p ∈ [(scanRun, tscope_sps.usageText),
             (tscope_sps_MCerror.main oracle rnd sqrt fit u z (verbosityArgs levels ++ a :: rest),
               tscope_sps_MCerror.usageText),
             (tscope_desy_MCerror.main oracle rnd sqrt fit u z (verbosityArgs levels ++ a :: rest),
               tscope_desy_MCerror.usageText)],
        p.1.stdout = p.2 ∧ p.1.exit = Exit.returned 0 ∧ p.1.opened = none ∧
        p.1.built = [] ∧ p.1.calls = []) ∧
    ∀ run ∈ [tscope_sps_MCerror.main oracle rnd sqrt fit u z [],
             tscope_desy_MCerror.main oracle rnd sqrt fit u z []],
      run.stdout = [Line.text "Please choose a mode!"] ∧ run.exit = Exit.returned 0 ∧
      run.opened = none ∧ run.built = [] ∧ run.calls = [] := by
  have hne := verbosityArgs_append_ne_nil levels a rest
  constructor
  · refine ⟨Run.early tscope_sps.usageText (Exit.returned 0), ?_, ?_⟩
    · simp only [tscope_sps.main, parseArgs_zero _ levels a rest ha h0]
    · intro p hp
      simp only [List.mem_cons, List.mem_singleton, List.not_mem_nil, or_false] at hp
      rcases hp with rfl | rfl | rfl
      · exact ⟨rfl, rfl, rfl, rfl, rfl⟩
      · simp only [tscope_sps_MCerror.main, hne, if_false,
          parseArgs_zero _ levels a rest ha h0]
        exact ⟨rfl, rfl, rfl, rfl, rfl⟩
      · simp only [tscope_desy_MCerror.main, hne, if_false,
          parseArgs_zero _ levels a rest ha h0]
        exact ⟨rfl, rfl, rfl, rfl, rfl⟩
  · intro run hrun
    simp only [List.mem_cons, List.mem_singleton, List.not_mem_nil, or_false] at hrun
    rcases hrun with rfl | rfl
    · exact ⟨rfl, rfl, rfl, rfl, rfl⟩
    · exact ⟨rfl, rfl, rfl, rfl, rfl⟩

/-- Instance of `usage_on_mode_zero` for the argument list `-v DEBUG 0`. -/
theorem usage_on_mode_zero_witness :
    ("0" : String) ≠ "-v" ∧ atoi "0" = 0 ∧
    (∃ scanRun : Run,
      tscope_sps.main (fun _ _ _ => 5 / 2) ⟨1, 0, 0, 0, 0⟩ 49
        (verbosityArgs ["DEBUG"] ++ "0" :: []) = some scanRun ∧
      ∀ p ∈ [(scanRun, tscope_sps.usageText),
             (tscope_sps_MCerror.main (fun _ _ _ => 5 / 2) binary64 (fun x => x) (fun _ => none)
               ⟨1, 0, 0, 0, 0⟩ (fun _ => 0) (verbosityArgs ["DEBUG"] ++ "0" :: []),
               tscope_sps_MCerror.usageText),
             (tscope_desy_MCerror.main (fun _ _ _ => 5 / 2) binary64 (fun x => x) (fun _ => none)
               ⟨1, 0, 0, 0, 0⟩ (fun _ => 0) (verbosityArgs ["DEBUG"] ++ "0" :: []),
               tscope_desy_MCerror.usageText)],
        p.1.stdout = p.2 ∧ p.1.exit = Exit.returned 0 ∧ p.1.opened = none ∧
        p.1.built = [] ∧ p.1.calls = []) ∧
    ∀ run ∈ [tscope_sps_MCerror.main (fun _ _ _ => 5 / 2) binary64 (fun x => x) (fun _ => none)
               ⟨1, 0, 0, 0, 0⟩ (fun _ => 0) [],
             tscope_desy_MCerror.main (fun _ _ _ => 5 / 2) binary64 (fun x => x) (fun _ => none)
               ⟨1, 0, 0, 0, 0⟩ (fun _ => 0) []],
      run.stdout = [Line.text "Please choose a mode!"] ∧ run.exit = Exit.returned 0 ∧
      run.opened = none ∧ run.built = [] ∧ run.calls = [] :=
  ⟨by decide, by decide,
    usage_on_mode_zero (fun _ _ _ => 5 / 2) binary64 (fun x => x) (fun _ => none) ⟨1, 0, 0, 0, 0⟩
      (fun _ => 0) 49 ["DEBUG"] "0" [] (by decide) (by decide)⟩

/-- C6 as stated fails when the mode argument is absent: with no argument the Monte Carlo
program prints `Please choose a mode!`, which is not its usage text; and `tscope_sps.cc`,
which has no test of `argc`, goes on with the unassigned `mode` (here holding `1`),
prints no usage text and opens an output file. -/
theorem no_usage_without_mode_argument :
    (tscope_sps_MCerror.main (fun _ _ _ => 5 / 2) binary64 (fun x => x) (fun _ => none)
        ⟨1, 0, 0, 0, 0⟩ (fun _ => 0) []).stdout = [Line.text "Please choose a mode!"] ∧
    (tscope_sps_MCerror.main (fun _ _ _ => 5 / 2) binary64 (fun x => x) (fun _ => none)
        ⟨1, 0, 0, 0, 0⟩ (fun _ => 0) []).stdout ≠ tscope_sps_MCerror.usageText ∧
    ∃ run : Run, tscope_sps.main (fun _ _ _ => 5 / 2) ⟨1, 0, 0, 0, 0⟩ 49 [] = some run ∧
      run.stdout = [Line.pwd] ∧
      run.opened = some "output/sps-resolution-nov2018_apx_7planes.root" := by
  refine ⟨rfl, by decide, ?_⟩
  obtain ⟨steps, hsteps, _⟩ := sps_scan_terminates (fun _ _ _ => 5 / 2) ⟨1, 0, 0, 0, 0⟩ 1
    (by decide) 49 (by decide) ((tscope_sps.Z_TEL 1).map fun zi =>
      (⟨zi, tscope_sps.X_TPX3, true, some tscope_sps.RES⟩ : plane))
  rw [sps_main_proceed (fun _ _ _ => 5 / 2) ⟨1, 0, 0, 0, 0⟩ 49 [] 1 "INFO" [] rfl, hsteps]
  exact ⟨_, rfl, rfl, rfl⟩

end gblsim

/-! ## Usage listing against the mode dispatch -/

namespace gblsim

/-- C7, evaluated on the code: the usage text of `tscope_sps.cc` lists the mode numbers
`0, 1, 0, 1`, so it lists `0` (for which no output file and no `X_DUT` is assigned) and
omits `2`, `3`, `4` (for which both are assigned); the usage text of
`tscope_desy_MCerror.cc` lists `1` to `6`, while for `5` and `6` the dispatch takes the
`Invalid mode` branch and `X_DUT`, `ERR_X_DUT` stay unassigned although the plane
positions are set; only in `tscope_sps_MCerror.cc` is a mode listed if and only if an
output file and the geometry are assigned for it. -/
theorem usage_listing_against_dispatch :
    (listedModes tscope_sps.usageText = [0, 1, 0, 1] ∧
      tscope_sps.outFile 0 = none ∧ tscope_sps.X_DUT 0 = none ∧
      ∀ mode ∈ [(2 : Int), 3, 4], mode ∉ listedModes tscope_sps.usageText ∧
        (tscope_sps.outFile mode).isSome = true ∧ (tscope_sps.X_DUT mode).isSome = true) ∧
    (listedModes tscope_desy_MCerror.usageText = [1, 2, 3, 4, 5, 6] ∧
      ∀ mode ∈ [(5 : Int), 6],
        tscope_desy_MCerror.outFile mode = none ∧ tscope_desy_MCerror.X_DUT mode = none ∧
        tscope_desy_MCerror.ERR_X_DUT mode = none ∧
        (tscope_desy_MCerror.Z_DUT mode).isSome = true ∧
        (tscope_desy_MCerror.Z_TEL mode).length = 6) ∧
    ∀ mode : Int, mode ∈ listedModes tscope_sps_MCerror.usageText ↔
      ((tscope_sps_MCerror.outFile mode).isSome = true ∧
        (tscope_sps_MCerror.X_DUT mode).isSome = true ∧
        (tscope_sps_MCerror.ERR_X_DUT mode).isSome = true) := by
  refine ⟨⟨by decide, by decide, by decide, by decide⟩, ⟨by decide, by decide⟩, ?_⟩
  intro mode
  have h : listedModes tscope_sps_MCerror.usageText = [1, 2, 3, 4] := by decide
  rw [h]
  simp only [tscope_sps_MCerror.outFile, tscope_sps_MCerror.X_DUT,
    tscope_sps_MCerror.ERR_X_DUT]
  by_cases h1 : mode = 1 <;> by_cases h2 : mode = 2 <;> by_cases h3 : mode = 3 <;>
    by_cases h4 : mode = 4 <;> simp [h1, h2, h3, h4]

/-! ## Number of planes per mode -/

theorem sps_iteration_count (v : tscope_sps_MCerror.Locals) (r : TRandom3)
    (c : OracleCall) (r2 : TRandom3) (h : tscope_sps_MCerror.iteration v r = some (c, r2)) :
    c.planes.length = v.Z_TEL.length + 1 ∧
    c.planes.countP (fun p => p.isMeasurement) = v.Z_TEL.length := by
  obtain ⟨_, _, _, tel, t2, htel, _, hplanes⟩ := sps_iteration_some v r c r2 h
  obtain ⟨_, hlen, hall⟩ := sampleTelescope_some _ _ _ _ _ _ _ _ htel
  simp only at hlen
  have hmeas : tel.countP (fun p => p.isMeasurement) = tel.length :=
    List.countP_eq_length.mpr fun p hp => (hall p hp).1
  rw [hplanes]
  simp only [List.length_append, List.length_singleton, List.countP_append, hlen, hmeas]
  exact ⟨trivial, rfl⟩

theorem desy_iteration_count (v : tscope_desy_MCerror.Locals) (r : TRandom3)
    (c : OracleCall) (r2 : TRandom3) (h : tscope_desy_MCerror.iteration v r = some (c, r2)) :
    c.planes.length = v.Z_TEL.length + (if v.mode = 1 ∨ v.mode = 3 then 1 else 0) + 1 ∧
    c.planes.countP (fun p => p.isMeasurement)
      = v.Z_TEL.length + (if v.mode = 1 ∨ v.mode = 3 then 1 else 0) := by
  obtain ⟨_, _, tel, tpx, t2, t3, htel, htpx, _, _, hplanes⟩ := desy_iteration_some v r c r2 h
  obtain ⟨_, hlen, hall⟩ := sampleTelescope_some _ _ _ _ _ _ _ _ htel
  obtain ⟨_, hlen2, _, hall2⟩ := sampleTimepix3_some v t2 (tpx, t3) htpx
  simp only at hlen hlen2 hall2
  have hmeas : tel.countP (fun p => p.isMeasurement) = tel.length :=
    List.countP_eq_length.mpr fun p hp => (hall p hp).1
  have hmeas2 : tpx.countP (fun p => p.isMeasurement) = tpx.length :=
    List.countP_eq_length.mpr fun p hp => (hall2 p hp).1
  rw [hplanes]
  simp only [List.length_append, List.length_singleton, List.countP_append, hlen, hlen2, hmeas,
    hmeas2]
  exact ⟨trivial, rfl⟩

theorem sps_MCerror_run_count (oracle : Oracle) (rnd sqrt : ℚ → ℚ) (fit : Fit)
    (u : Indeterminate) (z : Nat → ℚ) (argv : List String) (mode : Int) (level : String)
    (out : List Line) (hargv : argv ≠ [])
    (hparse : parseArgs tscope_sps_MCerror.usageText argv u.mode "INFO" []
      = .proceed mode level out) (hmode : 1 ≤ mode ∧ mode ≤ 4) :
    (∀ c ∈ (tscope_sps_MCerror.main oracle rnd sqrt fit u z argv).calls,
      c.planes.countP (fun p => p.isMeasurement)
        = 6 + (if mode = 1 ∨ mode = 3 then 1 else 0)) ∧
    ((∀ i, -41 / 20 ≤ z i) →
      (tscope_sps_MCerror.main oracle rnd sqrt fit u z argv).calls.length = 10000) := by
  rw [sps_MCerror_main_proceed oracle rnd sqrt fit u z argv mode level out hargv hparse]
  obtain ⟨horigin, _, hlen, _⟩ := mcRun_distribution oracle rnd sqrt fit z _
    (sps_iteration_z (tscope_sps_MCerror.locals u mode))
    10000 (tscope_sps_MCerror.outFile mode) (tscope_sps_MCerror.title mode) out
  refine ⟨fun c hc => ?_, fun hz => hlen (mcRun_not_aborted oracle rnd sqrt fit z _
    (sps_iteration_z _) (sps_iteration_isSome u mode hmode z hz) 10000 _ _ _)⟩
  obtain ⟨pos, r, hiter⟩ := horigin c hc
  rw [(sps_iteration_count _ _ c r hiter).2]
  simp only [tscope_sps_MCerror.locals, tscope_sps_MCerror.Z_TEL]
  split <;> rfl

theorem desy_MCerror_run_count (oracle : Oracle) (rnd sqrt : ℚ → ℚ) (fit : Fit)
    (u : Indeterminate) (z : Nat → ℚ) (argv : List String) (mode : Int) (level : String)
    (out : List Line) (hargv : argv ≠ [])
    (hparse : parseArgs tscope_desy_MCerror.usageText argv u.mode "INFO" []
      = .proceed mode level out) (hmode : 1 ≤ mode ∧ mode ≤ 4) :
    (∀ c ∈ (tscope_desy_MCerror.main oracle rnd sqrt fit u z argv).calls,
      c.planes.countP (fun p => p.isMeasurement)
        = 6 + (if mode = 1 ∨ mode = 3 then 1 else 0)) ∧
    ((∀ i, -41 / 20 ≤ z i) →
      (tscope_desy_MCerror.main oracle rnd sqrt fit u z argv).calls.length = 10000) := by
  rw [desy_MCerror_main_proceed oracle rnd sqrt fit u z argv mode level out hargv hparse]
  obtain ⟨horigin, _, hlen, _⟩ := mcRun_distribution oracle rnd sqrt fit z _
    (desy_iteration_z (tscope_desy_MCerror.locals u mode))
    10000 (tscope_desy_MCerror.outFile mode) (tscope_desy_MCerror.title mode) out
  refine ⟨fun c hc => ?_, fun hz => hlen (mcRun_not_aborted oracle rnd sqrt fit z _
    (desy_iteration_z _) (desy_iteration_isSome u mode hmode z hz) 10000 _ _ _)⟩
  obtain ⟨pos, r, hiter⟩ := horigin c hc
  rw [(desy_iteration_count _ _ c r hiter).2]
  have hlen := desy_Z_TEL_length mode ⟨hmode.1, by omega⟩
  simp only [tscope_desy_MCerror.locals, hlen]

/-- C8, evaluated on the code: in `tscope_desy_MCerror.cc` the Timepix3 plane is added in
modes 1 and 3, which the usage text, the output file name and the plot title describe as
`6 Mimosa26` (`M26`), so every realization of these modes has 7 measurement planes; and
it is missing in modes 2 and 4, described as `6 Mimosa26 + Timepix3` (`M26+TPX3`), whose
realizations have 6 measurement planes.  In `tscope_sps_MCerror.cc` the count agrees with
the description: 7 measurement planes in modes 1 and 3, 6 in modes 2 and 4.  A run whose
standard draws are all at least `-41/20` hands 10000 such realizations to the
estimator. -/
theorem plane_count_against_description (oracle : Oracle) (rnd sqrt : ℚ → ℚ) (fit : Fit)
    (u : Indeterminate) (z : Nat → ℚ) :
    (usageLines tscope_desy_MCerror.usageText 1
        = [Line.text "\t1: (June 2019) 6 Mimosa26, DUT = APX"] ∧
      tscope_desy_MCerror.outFile 1 = some "output/desy-resolution-june2019_apx_M26.root" ∧
      tscope_desy_MCerror.title 1 = some "APX: Res. at DUT (M26)" ∧
      usageLines tscope_desy_MCerror.usageText 2
        = [Line.text "\t2: (June 2019) 6 Mimosa26 + Timepix3, DUT = APX"] ∧
      tscope_desy_MCerror.outFile 2
        = some "output/desy-resolution-june2019_apx_M26+TPX3.root" ∧
      tscope_desy_MCerror.title 2 = some "APX: Res. at DUT (M26+TPX3)") ∧
    (∀ p ∈ [("1", 7), ("2", 6), ("3", 7), ("4", 6)],
      (∀ c ∈ (tscope_desy_MCerror.main oracle rnd sqrt fit u z [p.1]).calls,
        c.planes.countP (fun q => q.isMeasurement) = p.2) ∧
      ((∀ i, -41 / 20 ≤ z i) →
        (tscope_desy_MCerror.main oracle rnd sqrt fit u z [p.1]).calls.length = 10000)) ∧
    (usageLines tscope_sps_MCerror.usageText 1
        = [Line.text "\t1: 7 Timepix3 planes, DUT = APX"] ∧
      usageLines tscope_sps_MCerror.usageText 2
        = [Line.text "\t2: 6 Timepix3 planes, DUT = APX"]) ∧
    (∀ p ∈ [("1", 7), ("2", 6), ("3", 7), ("4", 6)],
      (∀ c ∈ (tscope_sps_MCerror.main oracle rnd sqrt fit u z [p.1]).calls,
        c.planes.countP (fun q => q.isMeasurement) = p.2) ∧
      ((∀ i, -41 / 20 ≤ z i) →
        (tscope_sps_MCerror.main oracle rnd sqrt fit u z [p.1]).calls.length = 10000)) := by
  refine ⟨⟨by decide, by decide, by decide, by decide, by decide, by decide⟩, ?_,
    ⟨by decide, by decide⟩, ?_⟩
  · intro p hp
    simp only [List.mem_cons, List.mem_singleton, List.not_mem_nil, or_false] at hp
    rcases hp with rfl | rfl | rfl | rfl
    · exact desy_MCerror_run_count oracle rnd sqrt fit u z ["1"] 1 "INFO" [Line.choseMode 1]
        (by decide) rfl (by decide)
    · exact desy_MCerror_run_count oracle rnd sqrt fit u z ["2"] 2 "INFO" [Line.choseMode 2]
        (by decide) rfl (by decide)
    · exact desy_MCerror_run_count oracle rnd sqrt fit u z ["3"] 3 "INFO" [Line.choseMode 3]
        (by decide) rfl (by decide)
    · exact desy_MCerror_run_count oracle rnd sqrt fit u z ["4"] 4 "INFO" [Line.choseMode 4]
        (by decide) rfl (by decide)
  · intro p hp
    simp only [List.mem_cons, List.mem_singleton, List.not_mem_nil, or_false] at hp
    rcases hp with rfl | rfl | rfl | rfl
    · exact sps_MCerror_run_count oracle rnd sqrt fit u z ["1"] 1 "INFO" [Line.choseMode 1]
        (by decide) rfl (by decide)
    · exact sps_MCerror_run_count oracle rnd sqrt fit u z ["2"] 2 "INFO" [Line.choseMode 2]
        (by decide) rfl (by decide)
    · exact sps_MCerror_run_count oracle rnd sqrt fit u z ["3"] 3 "INFO" [Line.choseMode 3]
        (by decide) rfl (by decide)
    · exact sps_MCerror_run_count oracle rnd sqrt fit u z ["4"] 4 "INFO" [Line.choseMode 4]
        (by decide) rfl (by decide)

end gblsim

/-! ## The summary against the order of the outcomes -/

namespace gblsim

/-- Two histograms with the same axis, cell contents and entry count. -/
theorem Fill_cells (h g : TH1F) (rnd : ℚ → ℚ) (x : ℚ)
    (hg : h.nbins = g.nbins ∧ h.xmin = g.xmin ∧ h.xmax = g.xmax ∧ h.contents = g.contents ∧
      h.entries = g.entries) :
    (h.Fill rnd x).nbins = (g.Fill rnd x).nbins ∧ (h.Fill rnd x).xmin = (g.Fill rnd x).xmin ∧
    (h.Fill rnd x).xmax = (g.Fill rnd x).xmax ∧
    (h.Fill rnd x).contents = (g.Fill rnd x).contents ∧
    (h.Fill rnd x).entries = (g.Fill rnd x).entries := by
  obtain ⟨h1, h2, h3, h4, h5⟩ := hg
  obtain ⟨a1, a2, a3⟩ := Fill_axis h rnd x
  obtain ⟨b1, b2, b3⟩ := Fill_axis g rnd x
  have hbin : h.FindBin rnd x = g.FindBin rnd x := by
    unfold TH1F.FindBin
    rw [h1, h2, h3]
  refine ⟨by rw [a1, b1, h1], by rw [a2, b2, h2], by rw [a3, b3, h3], ?_, ?_⟩
  · rw [Fill_contents, Fill_contents, hbin, h4]
  · rw [Fill_entries, Fill_entries, h5]

theorem Fill_swap_cells (h : TH1F) (rnd : ℚ → ℚ) (x y : ℚ) :
    ((h.Fill rnd x).Fill rnd y).nbins = ((h.Fill rnd y).Fill rnd x).nbins ∧
    ((h.Fill rnd x).Fill rnd y).xmin = ((h.Fill rnd y).Fill rnd x).xmin ∧
    ((h.Fill rnd x).Fill rnd y).xmax = ((h.Fill rnd y).Fill rnd x).xmax ∧
    ((h.Fill rnd x).Fill rnd y).contents = ((h.Fill rnd y).Fill rnd x).contents ∧
    ((h.Fill rnd x).Fill rnd y).entries = ((h.Fill rnd y).Fill rnd x).entries := by
  obtain ⟨a1, a2, a3⟩ := Fill_axis h rnd x
  obtain ⟨b1, b2, b3⟩ := Fill_axis h rnd y
  obtain ⟨c1, c2, c3⟩ := Fill_axis (h.Fill rnd x) rnd y
  obtain ⟨d1, d2, d3⟩ := Fill_axis (h.Fill rnd y) rnd x
  refine ⟨by rw [c1, d1, a1, b1], by rw [c2, d2, a2, b2], by rw [c3, d3, a3, b3], ?_, ?_⟩
  · rw [Fill_contents, Fill_contents, Fill_contents, Fill_contents, FindBin_Fill, FindBin_Fill]
    exact addBinContent_comm _ _ _
  · rw [Fill_entries, Fill_entries, Fill_entries, Fill_entries]

/-- Axis, cell contents and entry count after the fills do not depend on their order,
whatever the rounding. -/
theorem fillAll_perm_cells (rnd : ℚ → ℚ) (l1 l2 : List ℚ) (hperm : l1.Perm l2) :
    ∀ h g : TH1F,
      (h.nbins = g.nbins ∧ h.xmin = g.xmin ∧ h.xmax = g.xmax ∧ h.contents = g.contents ∧
        h.entries = g.entries) →
      ((h.fillAll rnd l1).nbins = (g.fillAll rnd l2).nbins ∧
        (h.fillAll rnd l1).xmin = (g.fillAll rnd l2).xmin ∧
        (h.fillAll rnd l1).xmax = (g.fillAll rnd l2).xmax ∧
        (h.fillAll rnd l1).contents = (g.fillAll rnd l2).contents ∧
        (h.fillAll rnd l1).entries = (g.fillAll rnd l2).entries) := by
  induction hperm with
  | nil => intro h g hg; exact hg
  | cons x _ ih =>
    intro h g hg
    rw [fillAll_cons, fillAll_cons]
    exact ih _ _ (Fill_cells h g rnd x hg)
  | swap x y l =>
    intro h g hg
    rw [fillAll_cons, fillAll_cons, fillAll_cons, fillAll_cons]
    have hl : ∀ (l : List ℚ) (a b : TH1F),
        (a.nbins = b.nbins ∧ a.xmin = b.xmin ∧ a.xmax = b.xmax ∧ a.contents = b.contents ∧
          a.entries = b.entries) →
        ((a.fillAll rnd l).nbins = (b.fillAll rnd l).nbins ∧
          (a.fillAll rnd l).xmin = (b.fillAll rnd l).xmin ∧
          (a.fillAll rnd l).xmax = (b.fillAll rnd l).xmax ∧
          (a.fillAll rnd l).contents = (b.fillAll rnd l).contents ∧
          (a.fillAll rnd l).entries = (b.fillAll rnd l).entries) := by
      intro l
      induction l with
      | nil => intro a b hab; exact hab
      | cons c l ihl =>
        intro a b hab
        rw [fillAll_cons, fillAll_cons]
        exact ihl _ _ (Fill_cells a b rnd c hab)
    apply hl
    obtain ⟨s1, s2, s3, s4, s5⟩ := Fill_swap_cells h rnd y x
    obtain ⟨t1, t2, t3, t4, t5⟩ := Fill_cells _ _ rnd y (Fill_cells h g rnd x hg)
    exact ⟨s1.trans t1, s2.trans t2, s3.trans t3, s4.trans t4, s5.trans t5⟩
  | trans _ _ ih1 ih2 =>
    intro h g hg
    obtain ⟨a1, a2, a3, a4, a5⟩ := ih1 h g hg
    obtain ⟨b1, b2, b3, b4, b5⟩ := ih2 g g ⟨rfl, rfl, rfl, rfl, rfl⟩
    exact ⟨a1.trans b1, a2.trans b2, a3.trans b3, a4.trans b4, a5.trans b5⟩

/-- The weight with which a fill enters the running sums: `0` for the underflow and
overflow cells. -/
theorem Fill_fields (h : TH1F) (x : ℚ) :
    ∃ w : ℚ, (w = 0 ∨ w = 1) ∧
      (w = 0 ↔ (h.FindBin (fun q => q) x = 0 ∨ h.nbins < h.FindBin (fun q => q) x)) ∧
      h.Fill (fun q => q) x
        = ⟨h.nbins, h.xmin, h.xmax, addBinContent (h.FindBin (fun q => q) x) h.contents,
          h.entries + 1, h.tsumw + w, h.tsumwx + w * x, h.tsumwx2 + w * (x * x), h.range⟩ := by
  by_cases hout : h.FindBin (fun q => q) x = 0 ∨ h.nbins < h.FindBin (fun q => q) x
  · refine ⟨0, Or.inl rfl, by simp [hout], ?_⟩
    unfold TH1F.Fill
    simp only [hout, if_true, zero_mul, add_zero]
  · refine ⟨1, Or.inr rfl, by simp [hout], ?_⟩
    unfold TH1F.Fill
    simp only [hout, if_false, one_mul]

/-- Without rounding two fills commute. -/
theorem Fill_comm (h : TH1F) (x y : ℚ) :
    (h.Fill (fun q => q) x).Fill (fun q => q) y
      = (h.Fill (fun q => q) y).Fill (fun q => q) x := by
  obtain ⟨wx, _, hwx, hx⟩ := Fill_fields h x
  obtain ⟨wy, _, hwy, hy⟩ := Fill_fields h y
  obtain ⟨wy2, _, hwy2, hxy⟩ := Fill_fields (h.Fill (fun q => q) x) y
  obtain ⟨wx2, _, hwx2, hyx⟩ := Fill_fields (h.Fill (fun q => q) y) x
  have ey : wy2 = wy := by
    rw [FindBin_Fill, (Fill_axis h _ x).1] at hwy2
    rcases ‹wy2 = 0 ∨ wy2 = 1› with h0 | h1
    · rw [h0]; exact ((hwy.mpr (hwy2.mp h0))).symm
    · rcases ‹wy = 0 ∨ wy = 1› with g0 | g1
      · exact absurd (hwy2.mpr (hwy.mp g0)) (by rw [h1]; norm_num)
      · rw [h1, g1]
  have ex : wx2 = wx := by
    rw [FindBin_Fill, (Fill_axis h _ y).1] at hwx2
    rcases ‹wx2 = 0 ∨ wx2 = 1› with h0 | h1
    · rw [h0]; exact ((hwx.mpr (hwx2.mp h0))).symm
    · rcases ‹wx = 0 ∨ wx = 1› with g0 | g1
      · exact absurd (hwx2.mpr (hwx.mp g0)) (by rw [h1]; norm_num)
      · rw [h1, g1]
  rw [hxy, hyx, FindBin_Fill, FindBin_Fill, ey, ex, hx, hy]
  simp only [TH1F.mk.injEq, true_and]
  refine ⟨addBinContent_comm _ _ _, ?_, ?_, ?_⟩
  · exact add_right_comm h.tsumw wx wy
  · exact add_right_comm h.tsumwx (wx * x) (wy * y)
  · exact ⟨add_right_comm h.tsumwx2 (wx * (x * x)) (wy * (y * y)), trivial⟩

theorem fillAll_perm (l1 l2 : List ℚ) (hperm : l1.Perm l2) :
    ∀ h : TH1F, h.fillAll (fun q => q) l1 = h.fillAll (fun q => q) l2 := by
  induction hperm with
  | nil => intro h; rfl
  | cons x _ ih => intro h; exact ih (h.Fill (fun q => q) x)
  | swap x y l =>
    intro h
    show ((h.Fill (fun q => q) y).Fill (fun q => q) x).fillAll (fun q => q) l
      = ((h.Fill (fun q => q) x).Fill (fun q => q) y).fillAll (fun q => q) l
    rw [Fill_comm]
  | trans _ _ ih1 ih2 => intro h; rw [ih1, ih2]

/-- C9, as far as it holds: for two outcome sequences that are permutations of each
other, filling the histogram (1000 bins over `[0,10)`) with one or the other gives the
same cell contents and entry count, whatever the rounding of the arithmetic; and when
the running sums are kept without rounding, also the same raw mean and RMS, the same
window `mean ± 5 RMS`, and, the fit being a function of the histogram with its window,
the same summary, in particular the same reported pair. -/
theorem summary_is_order_independent (rnd sqrt : ℚ → ℚ) (fit : Fit) (l1 l2 : List ℚ)
    (hperm : l1.Perm l2) :
    (((TH1F.new 1000 0 10).fillAll rnd l1).contents
        = ((TH1F.new 1000 0 10).fillAll rnd l2).contents ∧
      ((TH1F.new 1000 0 10).fillAll rnd l1).GetEntries
        = ((TH1F.new 1000 0 10).fillAll rnd l2).GetEntries) ∧
    (((TH1F.new 1000 0 10).fillAll (fun q => q) l1).GetMean (fun q => q)
        = ((TH1F.new 1000 0 10).fillAll (fun q => q) l2).GetMean (fun q => q) ∧
      ((TH1F.new 1000 0 10).fillAll (fun q => q) l1).GetRMS (fun q => q) sqrt
        = ((TH1F.new 1000 0 10).fillAll (fun q => q) l2).GetRMS (fun q => q) sqrt ∧
      (summarize (fun q => q) sqrt fit
          ((TH1F.new 1000 0 10).fillAll (fun q => q) l1)).hResolution.range
        = some (((TH1F.new 1000 0 10).fillAll (fun q => q) l2).GetMean (fun q => q)
              - 5 * ((TH1F.new 1000 0 10).fillAll (fun q => q) l2).GetRMS (fun q => q) sqrt,
            ((TH1F.new 1000 0 10).fillAll (fun q => q) l2).GetMean (fun q => q)
              + 5 * ((TH1F.new 1000 0 10).fillAll (fun q => q) l2).GetRMS (fun q => q) sqrt) ∧
      (summarize (fun q => q) sqrt fit ((TH1F.new 1000 0 10).fillAll (fun q => q) l1)).report
        = (summarize (fun q => q) sqrt fit
            ((TH1F.new 1000 0 10).fillAll (fun q => q) l2)).report ∧
      summarize (fun q => q) sqrt fit ((TH1F.new 1000 0 10).fillAll (fun q => q) l1)
        = summarize (fun q => q) sqrt fit ((TH1F.new 1000 0 10).fillAll (fun q => q) l2)) := by
  obtain ⟨_, _, _, hc, he⟩ := fillAll_perm_cells rnd l1 l2 hperm (TH1F.new 1000 0 10)
    (TH1F.new 1000 0 10) ⟨rfl, rfl, rfl, rfl, rfl⟩
  refine ⟨⟨hc, he⟩, ?_⟩
  rw [fillAll_perm l1 l2 hperm (TH1F.new 1000 0 10), summarize_hResolution]
  exact ⟨rfl, rfl, rfl, rfl, rfl⟩

/-- Instance of `summary_is_order_independent` for the outcomes `5/2, 3` and `3, 5/2`. -/
theorem summary_is_order_independent_witness :
    ([5 / 2, 3] : List ℚ).Perm [3, 5 / 2] ∧
    ((TH1F.new 1000 0 10).fillAll binary64 [5 / 2, 3]).contents
      = ((TH1F.new 1000 0 10).fillAll binary64 [3, 5 / 2]).contents ∧
    summarize (fun q => q) (fun x => x) (fun _ => some ⟨[1, 11 / 4, 1 / 4]⟩)
        ((TH1F.new 1000 0 10).fillAll (fun q => q) [5 / 2, 3])
      = summarize (fun q => q) (fun x => x) (fun _ => some ⟨[1, 11 / 4, 1 / 4]⟩)
        ((TH1F.new 1000 0 10).fillAll (fun q => q) [3, 5 / 2]) :=
  ⟨List.Perm.swap 3 (5 / 2) [],
    (summary_is_order_independent binary64 (fun x => x) (fun _ => some ⟨[1, 11 / 4, 1 / 4]⟩)
      [5 / 2, 3] [3, 5 / 2] (List.Perm.swap 3 (5 / 2) [])).1.1,
    (summary_is_order_independent binary64 (fun x => x) (fun _ => some ⟨[1, 11 / 4, 1 / 4]⟩)
      [5 / 2, 3] [3, 5 / 2] (List.Perm.swap 3 (5 / 2) [])).2.2.2.2.2⟩

/-- C9 as stated fails in double precision: the doubles nearest to `0.1, 0.2, 0.3`, filled
in this order and in the reverse order, leave the running sums `0.6000000000000001` and
`0.6` and hence the raw means `0.20000000000000004` and `0.19999999999999998`. -/
theorem mean_depends_on_fill_order :
    ([binary64 (1 / 10), binary64 (2 / 10), binary64 (3 / 10)] : List ℚ).Perm
      [binary64 (3 / 10), binary64 (2 / 10), binary64 (1 / 10)] ∧
    ((TH1F.new 1000 0 10).fillAll binary64
        [binary64 (1 / 10), binary64 (2 / 10), binary64 (3 / 10)]).GetMean binary64
      = 7205759403792795 / 36028797018963968 ∧
    ((TH1F.new 1000 0 10).fillAll binary64
        [binary64 (3 / 10), binary64 (2 / 10), binary64 (1 / 10)]).GetMean binary64
      = 7205759403792793 / 36028797018963968 ∧
    ((TH1F.new 1000 0 10).fillAll binary64
        [binary64 (1 / 10), binary64 (2 / 10), binary64 (3 / 10)]).GetMean binary64
      ≠ ((TH1F.new 1000 0 10).fillAll binary64
        [binary64 (3 / 10), binary64 (2 / 10), binary64 (1 / 10)]).GetMean binary64 := by
  refine ⟨(List.reverse_perm
    [binary64 (1 / 10), binary64 (2 / 10), binary64 (3 / 10)]).symm, ?_, ?_, ?_⟩
  · decide!
  · decide!
  · decide!

/-! ## What is reported when the fit leaves no function -/

theorem summarize_report (rnd sqrt : ℚ → ℚ) (fit : Fit) (h : TH1F) :
    (∀ func : TF1,
      fit (h.SetRangeUser (windowLo rnd (h.GetMean rnd) (h.GetRMS rnd sqrt))
          (windowHi rnd (h.GetMean rnd) (h.GetRMS rnd sqrt))) = some func →
      (summarize rnd sqrt fit h).report = some (func.GetParameter 1, func.GetParameter 2) ∧
      (summarize rnd sqrt fit h).out
        = [Line.setRange (windowLo rnd (h.GetMean rnd) (h.GetRMS rnd sqrt))
            (windowHi rnd (h.GetMean rnd) (h.GetRMS rnd sqrt)),
           Line.pointing (func.GetParameter 1) (func.GetParameter 2)]) ∧
    (fit (h.SetRangeUser (windowLo rnd (h.GetMean rnd) (h.GetRMS rnd sqrt))
          (windowHi rnd (h.GetMean rnd) (h.GetRMS rnd sqrt))) = none →
      (summarize rnd sqrt fit h).report = none ∧
      (summarize rnd sqrt fit h).out
        = [Line.setRange (windowLo rnd (h.GetMean rnd) (h.GetRMS rnd sqrt))
            (windowHi rnd (h.GetMean rnd) (h.GetRMS rnd sqrt))]) := by
  constructor
  · intro func hf
    unfold summarize
    simp only [hf]
    exact ⟨trivial, rfl⟩
  · intro hf
    unfold summarize
    simp only [hf]
    exact ⟨trivial, trivial⟩

/-- The report and the end of the shared Monte Carlo part of `main` when no plane
construction failed, by the result of the fit on the histogram with its window. -/
theorem mcRun_report (oracle : Oracle) (rnd sqrt : ℚ → ℚ) (fit : Fit) (z : Nat → ℚ)
    (iteration : TRandom3 → Option (OracleCall × TRandom3))
    (hz : ∀ r r2, iteration r = some r2 → r2.2.z = r.z)
    (n : Nat) (file title : Option String) (out : List Line)
    (hne : (mcRun oracle rnd sqrt fit z iteration n file title out).exit ≠ Exit.invalidPlane) :
    ∃ h0 hw : TH1F,
      h0 = (TH1F.new 1000 0 10).fillAll rnd
        ((mcRun oracle rnd sqrt fit z iteration n file title out).calls.map
          fun c => c.result oracle) ∧
      hw = h0.SetRangeUser (windowLo rnd (h0.GetMean rnd) (h0.GetRMS rnd sqrt))
        (windowHi rnd (h0.GetMean rnd) (h0.GetRMS rnd sqrt)) ∧
      (mcRun oracle rnd sqrt fit z iteration n file title out).hResolution = some hw ∧
      (∀ func : TF1, fit hw = some func →
        (mcRun oracle rnd sqrt fit z iteration n file title out).report
          = some (func.GetParameter 1, func.GetParameter 2) ∧
        (mcRun oracle rnd sqrt fit z iteration n file title out).exit = finish file) ∧
      (fit hw = none →
        (mcRun oracle rnd sqrt fit z iteration n file title out).report = none ∧
        (mcRun oracle rnd sqrt fit z iteration n file title out).exit = Exit.nullFunction) := by
  obtain ⟨h1, _, _, _⟩ := mcLoop_spec oracle rnd iteration hz n z (TH1F.new 1000 0 10)
  cases hab : (mcLoop oracle rnd iteration n 0
      ⟨⟨z, 0⟩, TH1F.new 1000 0 10, [], false⟩).aborted with
  | true =>
    rw [mcRun_of_aborted oracle rnd sqrt fit z iteration n file title out hab] at hne
    exact absurd rfl hne
  | false =>
    rw [mcRun_of_completed oracle rnd sqrt fit z iteration n file title out hab]
    refine ⟨_, _, rfl, rfl, ?_, ?_, ?_⟩
    · dsimp only
      rw [summarize_hResolution, ← h1]
    · intro func hf
      dsimp only at hf ⊢
      rw [← h1] at hf
      have hr := ((summarize_report rnd sqrt fit _).1 func hf).1
      rw [hr]
      exact ⟨rfl, rfl⟩
    · intro hf
      dsimp only at hf ⊢
      rw [← h1] at hf
      have hr := ((summarize_report rnd sqrt fit _).2 hf).1
      rw [hr]
      exact ⟨rfl, rfl⟩

/-- C10, as the drivers have it: in a run of either Monte Carlo driver that gets past the
argument loop and is not ended by a failed plane construction (none is in modes 1 to 4
when every standard draw is at least `-41/20`), all 10000 outcomes are in the histogram,
the histogram is given the window `mean ± 5 RMS` of its raw statistics and fitted; when
the fit leaves a function, the reported pair is that function's parameters 1 and 2 and
`main` goes on to its end; when the fit leaves no function, nothing is reported: there
is no fallback to the raw mean and RMS, and the run ends at `func->GetParameter(1)` on
the null `func`.  A run ended by a failed plane construction reports nothing. -/
theorem report_follows_fit (oracle : Oracle) (rnd sqrt : ℚ → ℚ) (fit : Fit)
    (u : Indeterminate) (z : Nat → ℚ) (argv : List String) (mode : Int) (level : String)
    (out : List Line) (hargv : argv ≠ [])
    (hparse : ∀ usageText, parseArgs usageText argv u.mode "INFO" []
      = .proceed mode level out) :
    ∀ run ∈ [tscope_sps_MCerror.main oracle rnd sqrt fit u z argv,
             tscope_desy_MCerror.main oracle rnd sqrt fit u z argv],
      (run.exit ≠ Exit.invalidPlane →
        run.calls.length = 10000 ∧
        ∃ h0 hw : TH1F,
          h0 = (TH1F.new 1000 0 10).fillAll rnd (run.calls.map fun c => c.result oracle) ∧
          hw = h0.SetRangeUser (windowLo rnd (h0.GetMean rnd) (h0.GetRMS rnd sqrt))
            (windowHi rnd (h0.GetMean rnd) (h0.GetRMS rnd sqrt)) ∧
          run.hResolution = some hw ∧
          (∀ func : TF1, fit hw = some func →
            run.report = some (func.GetParameter 1, func.GetParameter 2) ∧
            run.exit = finish run.opened) ∧
          (fit hw = none → run.report = none ∧ run.exit = Exit.nullFunction)) ∧
      (run.exit = Exit.invalidPlane → run.report = none) ∧
      ((1 ≤ mode ∧ mode ≤ 4) → (∀ i, -41 / 20 ≤ z i) → run.exit ≠ Exit.invalidPlane) := by
  intro run hrun
  simp only [List.mem_cons, List.mem_singleton, List.not_mem_nil, or_false] at hrun
  rcases hrun with rfl | rfl
  · rw [sps_MCerror_main_proceed oracle rnd sqrt fit u z argv mode level out hargv (hparse _)]
    obtain ⟨_, _, hlen, hab⟩ := mcRun_distribution oracle rnd sqrt fit z
      (tscope_sps_MCerror.iteration (tscope_sps_MCerror.locals u mode)) (sps_iteration_z _)
      10000 (tscope_sps_MCerror.outFile mode) (tscope_sps_MCerror.title mode) out
    refine ⟨fun hne => ⟨hlen hne, ?_⟩, fun h => (hab h).2.2, fun hmode hz => ?_⟩
    · have hop : (mcRun oracle rnd sqrt fit z
          (tscope_sps_MCerror.iteration (tscope_sps_MCerror.locals u mode)) 10000
          (tscope_sps_MCerror.outFile mode) (tscope_sps_MCerror.title mode) out).opened
          = tscope_sps_MCerror.outFile mode := by
        unfold mcRun
        dsimp only
        split <;> rfl
      rw [hop]
      exact mcRun_report oracle rnd sqrt fit z _ (sps_iteration_z _) 10000 _ _ out hne
    · exact mcRun_not_aborted oracle rnd sqrt fit z _ (sps_iteration_z _)
        (sps_iteration_isSome u mode hmode z hz) 10000 _ _ _
  · rw [desy_MCerror_main_proceed oracle rnd sqrt fit u z argv mode level out hargv (hparse _)]
    obtain ⟨_, _, hlen, hab⟩ := mcRun_distribution oracle rnd sqrt fit z
      (tscope_desy_MCerror.iteration (tscope_desy_MCerror.locals u mode))
      (desy_iteration_z _)
      10000 (tscope_desy_MCerror.outFile mode) (tscope_desy_MCerror.title mode) out
    refine ⟨fun hne => ⟨hlen hne, ?_⟩, fun h => (hab h).2.2, fun hmode hz => ?_⟩
    · have hop : (mcRun oracle rnd sqrt fit z
          (tscope_desy_MCerror.iteration (tscope_desy_MCerror.locals u mode)) 10000
          (tscope_desy_MCerror.outFile mode) (tscope_desy_MCerror.title mode) out).opened
          = tscope_desy_MCerror.outFile mode := by
        unfold mcRun
        dsimp only
        split <;> rfl
      rw [hop]
      exact mcRun_report oracle rnd sqrt fit z _ (desy_iteration_z _) 10000 _ _ out hne
    · exact mcRun_not_aborted oracle rnd sqrt fit z _ (desy_iteration_z _)
        (desy_iteration_isSome u mode hmode z hz) 10000 _ _ _

/-- Instance of `report_follows_fit` for the argument list `1` and a fit that always
leaves the function with parameters `1, 5/2, 1/10`. -/
theorem report_follows_fit_witness :
    (["1"] : List String) ≠ [] ∧
    (∀ usageText, parseArgs usageText ["1"] 0 "INFO" []
      = .proceed 1 "INFO" [Line.choseMode 1]) ∧
    ∀ run ∈ [tscope_sps_MCerror.main (fun _ _ _ => 5 / 2) binary64 (fun x => x)
               (fun _ => some ⟨[1, 5 / 2, 1 / 10]⟩) ⟨0, 0, 0, 0, 0⟩ (fun _ => 0) ["1"],
             tscope_desy_MCerror.main (fun _ _ _ => 5 / 2) binary64 (fun x => x)
               (fun _ => some ⟨[1, 5 / 2, 1 / 10]⟩) ⟨0, 0, 0, 0, 0⟩ (fun _ => 0) ["1"]],
      (run.exit ≠ Exit.invalidPlane →
        run.calls.length = 10000 ∧
        ∃ h0 hw : TH1F,
          h0 = (TH1F.new 1000 0 10).fillAll binary64
            (run.calls.map fun c => c.result (fun _ _ _ => 5 / 2)) ∧
          hw = h0.SetRangeUser
            (windowLo binary64 (h0.GetMean binary64) (h0.GetRMS binary64 (fun x => x)))
            (windowHi binary64 (h0.GetMean binary64) (h0.GetRMS binary64 (fun x => x))) ∧
          run.hResolution = some hw ∧
          (∀ func : TF1, (fun _ => some ⟨[1, 5 / 2, 1 / 10]⟩ : Fit) hw = some func →
            run.report = some (func.GetParameter 1, func.GetParameter 2) ∧
            run.exit = finish run.opened) ∧
          ((fun _ => some ⟨[1, 5 / 2, 1 / 10]⟩ : Fit) hw = none →
            run.report = none ∧ run.exit = Exit.nullFunction)) ∧
      (run.exit = Exit.invalidPlane → run.report = none) ∧
      (((1 : Int) ≤ 1 ∧ (1 : Int) ≤ 4) →
        (∀ i : Nat, (-41 / 20 : ℚ) ≤ (fun _ => 0 : Nat → ℚ) i) →
        run.exit ≠ Exit.invalidPlane) :=
  ⟨by decide, fun _ => rfl,
    report_follows_fit (fun _ _ _ => 5 / 2) binary64 (fun x => x)
      (fun _ => some ⟨[1, 5 / 2, 1 / 10]⟩)
      ⟨0, 0, 0, 0, 0⟩ (fun _ => 0) ["1"] 1 "INFO" [Line.choseMode 1] (by decide)
      (fun _ => rfl)⟩

/-- C10 as stated fails: with a fit that leaves no function, the runs of both Monte Carlo
drivers with argument `1` report nothing (in particular not the raw mean and RMS) and do
not reach the end of `main`. -/
theorem no_fallback_when_fit_fails :
    ((tscope_sps_MCerror.main (fun _ _ _ => 5 / 2) binary64 (fun x => x) (fun _ => none)
        ⟨0, 0, 0, 0, 0⟩ (fun _ => 0) ["1"]).report = none ∧
      (tscope_sps_MCerror.main (fun _ _ _ => 5 / 2) binary64 (fun x => x) (fun _ => none)
        ⟨0, 0, 0, 0, 0⟩ (fun _ => 0) ["1"]).exit = Exit.nullFunction) ∧
    ((tscope_desy_MCerror.main (fun _ _ _ => 5 / 2) binary64 (fun x => x) (fun _ => none)
        ⟨0, 0, 0, 0, 0⟩ (fun _ => 0) ["1"]).report = none ∧
      (tscope_desy_MCerror.main (fun _ _ _ => 5 / 2) binary64 (fun x => x) (fun _ => none)
        ⟨0, 0, 0, 0, 0⟩ (fun _ => 0) ["1"]).exit = Exit.nullFunction) := by
  have hz : ∀ i : Nat, (-41 / 20 : ℚ) ≤ (fun _ => 0 : Nat → ℚ) i := fun _ => by norm_num
  constructor
  · rw [sps_MCerror_main_proceed (fun _ _ _ => 5 / 2) binary64 (fun x => x) (fun _ => none)
      ⟨0, 0, 0, 0, 0⟩ (fun _ => 0) ["1"] 1 "INFO" [Line.choseMode 1] (by decide) rfl]
    obtain ⟨h0, hw, _, _, _, _, hnone⟩ := mcRun_report (fun _ _ _ => 5 / 2) binary64
      (fun x => x) (fun _ => none) (fun _ => 0)
      (tscope_sps_MCerror.iteration (tscope_sps_MCerror.locals ⟨0, 0, 0, 0, 0⟩ 1))
      (sps_iteration_z _) 10000 (tscope_sps_MCerror.outFile 1) (tscope_sps_MCerror.title 1)
      [Line.choseMode 1]
      (mcRun_not_aborted _ _ _ _ _ _ (sps_iteration_z _)
        (sps_iteration_isSome ⟨0, 0, 0, 0, 0⟩ 1 (by decide) _ hz) 10000 _ _ _)
    exact hnone rfl
  · rw [desy_MCerror_main_proceed (fun _ _ _ => 5 / 2) binary64 (fun x => x) (fun _ => none)
      ⟨0, 0, 0, 0, 0⟩ (fun _ => 0) ["1"] 1 "INFO" [Line.choseMode 1] (by decide) rfl]
    obtain ⟨h0, hw, _, _, _, _, hnone⟩ := mcRun_report (fun _ _ _ => 5 / 2) binary64
      (fun x => x) (fun _ => none) (fun _ => 0)
      (tscope_desy_MCerror.iteration (tscope_desy_MCerror.locals ⟨0, 0, 0, 0, 0⟩ 1))
      (desy_iteration_z _) 10000 (tscope_desy_MCerror.outFile 1)
      (tscope_desy_MCerror.title 1) [Line.choseMode 1]
      (mcRun_not_aborted _ _ _ _ _ _ (desy_iteration_z _)
        (desy_iteration_isSome ⟨0, 0, 0, 0, 0⟩ 1 (by decide) _ hz) 10000 _ _ _)
    exact hnone rfl

end gblsim

/-! ## Position of the DUT among the planes ordered by position -/

namespace gblsim

/-- In a list ordered by position that holds the planes `tel` and the plane `dut`, where no
plane of `tel` is at the position of `dut`, the index of `dut` is the number of planes of
`tel` in front of it. -/
theorem sorted_index_of_dut (tel sorted : List plane) (dut : plane)
    (hperm : sorted.Perm (tel ++ [dut]))
    (hsorted : List.Sorted (fun a b : plane => a.position ≤ b.position) sorted)
    (hne : ∀ p ∈ tel, p.position ≠ dut.position) :
    sorted[tel.countP fun p => p.position < dut.position]? = some dut := by
  have hd : dut ∈ sorted := hperm.mem_iff.mpr (by simp)
  obtain ⟨l1, l2, rfl⟩ := List.append_of_mem hd
  have hp : (l1 ++ l2).Perm tel := by
    have h1 : (dut :: (l1 ++ l2)).Perm (dut :: tel) :=
      (List.perm_middle.symm.trans hperm).trans (List.perm_append_singleton dut tel)
    exact h1.cons_inv
  have hs := List.pairwise_append.mp hsorted
  have hbefore : ∀ a ∈ l1, a.position < dut.position := by
    intro a ha
    have hle := hs.2.2 a ha dut (List.mem_cons_self _ _)
    have hne2 := hne a (hp.mem_iff.mp (List.mem_append_left _ ha))
    exact lt_of_le_of_ne hle hne2
  have hafter : ∀ b ∈ l2, ¬ b.position < dut.position := by
    intro b hb
    exact not_lt.mpr ((List.pairwise_cons.mp hs.2.1).1 b hb)
  have hcount : (tel.countP fun p => p.position < dut.position) = l1.length := by
    rw [← hp.countP_eq, List.countP_append,
      List.countP_eq_length.mpr (fun a ha => by simpa using hbefore a ha),
      List.countP_eq_zero.mpr (fun b hb => by simpa using hafter b hb)]
    rfl
  rw [hcount, List.getElem?_append_right (le_refl _)]
  simp

theorem sps_table (mode : Int) :
    (tscope_sps.Z_TEL mode).countP (fun zi => decide (zi < tscope_sps.Z_DUT)) = 3 ∧
    tscope_sps.Z_DUT ∉ tscope_sps.Z_TEL mode := by
  unfold tscope_sps.Z_TEL tscope_sps.Z_DUT
  split <;> norm_num [List.countP_cons]

theorem sps_MCerror_table (u : Indeterminate) (mode : Int) :
    (tscope_sps_MCerror.locals u mode).Z_TEL.countP
        (fun zi => decide (zi < (tscope_sps_MCerror.locals u mode).Z_DUT)) = 3 ∧
    (tscope_sps_MCerror.locals u mode).Z_DUT ∉ (tscope_sps_MCerror.locals u mode).Z_TEL := by
  simp only [tscope_sps_MCerror.locals, tscope_sps_MCerror.Z_TEL]
  split <;> norm_num [List.countP_cons]

theorem desy_table (u : Indeterminate) (mode : Int) (hmode : 1 ≤ mode ∧ mode ≤ 6) :
    ((tscope_desy_MCerror.locals u mode).Z_TEL.countP
        (fun zi => decide (zi < (tscope_desy_MCerror.locals u mode).Z_DUT)) = 3 ∧
      (tscope_desy_MCerror.locals u mode).Z_DUT ∉ (tscope_desy_MCerror.locals u mode).Z_TEL) ∧
    (tscope_desy_MCerror.locals u mode).Z_DUT < (tscope_desy_MCerror.locals u mode).Z_TPX3 ∧
    (tscope_desy_MCerror.locals u mode).Z_DUT = (if mode ≤ 4 then 333 else 331) := by
  obtain ⟨h1, h2⟩ := hmode
  interval_cases mode <;>
    norm_num [tscope_desy_MCerror.locals, tscope_desy_MCerror.Z_TEL,
      tscope_desy_MCerror.Z_DUT, tscope_desy_MCerror.Z_TPX3, List.countP_cons]

theorem dut_fourth_of_table (tel sorted : List plane) (dut : plane) (zs : List ℚ)
    (hz : (tel.map fun p => p.position) = zs)
    (hc : zs.countP (fun zi => decide (zi < dut.position)) = 3)
    (hn : dut.position ∉ zs)
    (hperm : sorted.Perm (tel ++ [dut]))
    (hsorted : List.Sorted (fun a b : plane => a.position ≤ b.position) sorted) :
    (tel.countP fun p => p.position < dut.position) = 3 ∧
    (∀ p ∈ tel, p.position ≠ dut.position) ∧
    sorted[3]? = some dut := by
  have hcount : (tel.countP fun p => p.position < dut.position) = 3 := by
    rw [← hc, ← hz, List.countP_map]
    rfl
  have hne : ∀ p ∈ tel, p.position ≠ dut.position := by
    intro p hp heq
    apply hn
    rw [← hz, ← heq]
    exact List.mem_map.mpr ⟨p, hp, rfl⟩
  refine ⟨hcount, hne, ?_⟩
  have h := sorted_index_of_dut tel sorted dut hperm hsorted hne
  rw [hcount] at h
  exact h

/-- C12: in every geometry table of the three programs (`tscope_sps.cc` and
`tscope_sps_MCerror.cc`: `Z_TEL` with 6 or 7 planes, `Z_DUT = 105`;
`tscope_desy_MCerror.cc`, modes 1 to 4: `Z_DUT = 333`, modes 5 and 6: `Z_DUT = 331`, with
or without the Timepix3 plane at `Z_TPX3`), exactly three telescope planes have a
position strictly below that of the DUT and none has the same position; so in any
arrangement of the telescope planes and the DUT in order of position, the DUT is at
index 3, the index passed to `getResolution`. -/
theorem dut_is_fourth_by_position (u : Indeterminate) (mode : Int)
    (tel sorted : List plane) (dut : plane)
    (htable :
      ((tel.map fun p => p.position) = tscope_sps.Z_TEL mode ∧
        dut.position = tscope_sps.Z_DUT) ∨
      ((tel.map fun p => p.position) = (tscope_sps_MCerror.locals u mode).Z_TEL ∧
        dut.position = (tscope_sps_MCerror.locals u mode).Z_DUT) ∨
      ((1 ≤ mode ∧ mode ≤ 6) ∧
        ((tel.map fun p => p.position) = (tscope_desy_MCerror.locals u mode).Z_TEL ∨
          (tel.map fun p => p.position) = (tscope_desy_MCerror.locals u mode).Z_TEL
            ++ [(tscope_desy_MCerror.locals u mode).Z_TPX3]) ∧
        dut.position = (tscope_desy_MCerror.locals u mode).Z_DUT))
    (hperm : sorted.Perm (tel ++ [dut]))
    (hsorted : List.Sorted (fun a b : plane => a.position ≤ b.position) sorted) :
    (tel.countP fun p => p.position < dut.position) = 3 ∧
    (∀ p ∈ tel, p.position ≠ dut.position) ∧
    sorted[3]? = some dut ∧
    (dut.position = 105 ∨ dut.position = 333 ∨ dut.position = 331) := by
  rcases htable with ⟨hz, hd⟩ | ⟨hz, hd⟩ | ⟨hmode, hz, hd⟩
  · obtain ⟨hc, hn⟩ := sps_table mode
    rw [← hd] at hc hn
    obtain ⟨h1, h2, h3⟩ := dut_fourth_of_table tel sorted dut _ hz hc hn hperm hsorted
    exact ⟨h1, h2, h3, Or.inl (by rw [hd]; norm_num [tscope_sps.Z_DUT])⟩
  · obtain ⟨hc, hn⟩ := sps_MCerror_table u mode
    rw [← hd] at hc hn
    obtain ⟨h1, h2, h3⟩ := dut_fourth_of_table tel sorted dut _ hz hc hn hperm hsorted
    exact ⟨h1, h2, h3, Or.inl (by rw [hd]; norm_num [tscope_sps_MCerror.locals])⟩
  · obtain ⟨⟨hc, hn⟩, hlt, hval⟩ := desy_table u mode hmode
    rw [← hd] at hc hn hlt hval
    have hpos : dut.position = 105 ∨ dut.position = 333 ∨ dut.position = 331 := by
      rw [hval]
      split
      · exact Or.inr (Or.inl rfl)
      · exact Or.inr (Or.inr rfl)
    rcases hz with hz | hz
    · obtain ⟨h1, h2, h3⟩ := dut_fourth_of_table tel sorted dut _ hz hc hn hperm hsorted
      exact ⟨h1, h2, h3, hpos⟩
    · have hc2 : ((tscope_desy_MCerror.locals u mode).Z_TEL
            ++ [(tscope_desy_MCerror.locals u mode).Z_TPX3]).countP
          (fun zi => decide (zi < dut.position)) = 3 := by
        rw [List.countP_append, hc]
        simp [List.countP_cons, not_lt.mpr hlt.le]
      have hn2 : dut.position ∉ (tscope_desy_MCerror.locals u mode).Z_TEL
            ++ [(tscope_desy_MCerror.locals u mode).Z_TPX3] := by
        intro hmem
        rcases List.mem_append.mp hmem with hmem | hmem
        · exact hn hmem
        · simp only [List.mem_singleton] at hmem
          exact absurd hmem (ne_of_lt hlt)
      obtain ⟨h1, h2, h3⟩ := dut_fourth_of_table tel sorted dut _ hz hc2 hn2 hperm hsorted
      exact ⟨h1, h2, h3, hpos⟩

/-- Instance of `dut_is_fourth_by_position` for the table of mode 1 of `tscope_sps.cc`. -/
theorem dut_is_fourth_by_position_witness :
    (((spsTel.map fun p => p.position) = tscope_sps.Z_TEL 1 ∧
        spsDut.position = tscope_sps.Z_DUT) ∨
      ((spsTel.map fun p => p.position)
          = (tscope_sps_MCerror.locals ⟨0, 0, 0, 0, 0⟩ 1).Z_TEL ∧
        spsDut.position = (tscope_sps_MCerror.locals ⟨0, 0, 0, 0, 0⟩ 1).Z_DUT) ∨
      (((1 : Int) ≤ 1 ∧ (1 : Int) ≤ 6) ∧
        ((spsTel.map fun p => p.position)
            = (tscope_desy_MCerror.locals ⟨0, 0, 0, 0, 0⟩ 1).Z_TEL ∨
          (spsTel.map fun p => p.position)
            = (tscope_desy_MCerror.locals ⟨0, 0, 0, 0, 0⟩ 1).Z_TEL
              ++ [(tscope_desy_MCerror.locals ⟨0, 0, 0, 0, 0⟩ 1).Z_TPX3]) ∧
        spsDut.position = (tscope_desy_MCerror.locals ⟨0, 0, 0, 0, 0⟩ 1).Z_DUT)) ∧
    spsByPosition.Perm (spsTel ++ [spsDut]) ∧
    List.Sorted (fun a b : plane => a.position ≤ b.position) spsByPosition ∧
    (spsTel.countP fun p => p.position < spsDut.position) = 3 ∧
    (∀ p ∈ spsTel, p.position ≠ spsDut.position) ∧
    spsByPosition[3]? = some spsDut ∧
    (spsDut.position = 105 ∨ spsDut.position = 333 ∨ spsDut.position = 331) := by
  have htable : (spsTel.map fun p => p.position) = tscope_sps.Z_TEL 1 ∧
      spsDut.position = tscope_sps.Z_DUT := by
    refine ⟨?_, rfl⟩
    simp only [spsTel, List.map_map]
    exact List.map_id _
  have hperm : spsByPosition.Perm (spsTel ++ [spsDut]) := by
    have h1 : spsByPosition.Perm
        (spsDut :: (spsTel.take 3 ++ spsTel.drop 3)) :=
      List.perm_middle
    rw [List.take_append_drop] at h1
    exact h1.trans (List.perm_append_singleton spsDut spsTel).symm
  have hsorted : List.Sorted (fun a b : plane => a.position ≤ b.position) spsByPosition := by
    simp only [spsByPosition, spsDut, spsTel, tscope_sps.Z_TEL, tscope_sps.Z_DUT,
      List.Sorted]
    norm_num
  exact ⟨Or.inl htable, hperm, hsorted,
    dut_is_fourth_by_position ⟨0, 0, 0, 0, 0⟩ 1 spsTel spsByPosition spsDut
      (Or.inl htable) hperm hsorted⟩

end gblsim
